import Mathlib

/-! Exam-result records: controller logic over a document store.

A shallow embedding of `backend/controllers/resultController.js`,
`backend/models/Result.js` and `backend/routes/results.js`.

* The two collections are lists in insertion order; a handler is a function from
  the store (and the request) to the new store and the reply.
* Identifiers are natural numbers standing for well-formed `ObjectId`s; an absent,
  `null` or empty identifier in a request is `none`.
* Dates are milliseconds since the epoch; the clock is passed as `now`.
* JavaScript numbers are exact rationals (`ℚ`); a non-finite number is `none`.
* The schema of `Result.js` is applied by `Result.create`: the `trim` setters,
  the defaults, then the `required`, `enum`, `min` and `max` validators.
* Mongoose casts the filter of `find`, `findOne` and `countDocuments` through the
  schema, which runs the same setters on its values; it does not cast the stages of
  an aggregation pipeline.
* A sort keeps documents with equal keys in their stored order.
* A rejected promise (handed by `asyncHandler` to the error middleware, which is
  not part of the controller) is the reply `rejected`.
-/

namespace Madrasha

/-! ## JavaScript strings -/

/-- White space and line terminators removed by `String.prototype.trim`. -/
def isJsWhitespace (c : Char) : Bool :=
  let n := c.toNat
  n == 0x09 || n == 0x0A || n == 0x0B || n == 0x0C || n == 0x0D || n == 0x20 ||
  n == 0xA0 || n == 0x1680 || (0x2000 ≤ n && n ≤ 0x200A) || n == 0x2028 ||
  n == 0x2029 || n == 0x202F || n == 0x205F || n == 0x3000 || n == 0xFEFF

/-- Characters of a string without leading and trailing white space. -/
def trimChars (cs : List Char) : List Char :=
  ((cs.dropWhile isJsWhitespace).reverse.dropWhile isJsWhitespace).reverse

/-- The `trim` setter of a `String` schema path. -/
def jsTrim (s : String) : String :=
  String.mk (trimChars s.data)

/-- Truthiness of a string value: only `""` is falsy. -/
def truthyStr (s : String) : Bool :=
  s != ""

/-- Truthiness of an optional string: `undefined` and `""` are falsy. -/
def truthy : Option String → Bool
  | none => false
  | some s => truthyStr s

/-! ## Data model -/

abbrev ObjectId := Nat

abbrev Date := Nat

/-- Student document: the collaborator collection, read by identifier only. -/
structure Student where
  _id : ObjectId
  fullName : String
  className : String
  phone : String
  fatherName : String
  motherName : String
  dateOfBirth : Date
  deriving DecidableEq

/-- Result document as stored, after `resultSchema` (with `timestamps: true`). -/
structure Result where
  _id : ObjectId
  studentId : ObjectId
  studentName : String
  className : String
  exam : String
  grade : String
  marks : Option ℚ
  subject : Option String
  remarks : Option String
  examDate : Option Date
  createdBy : String
  createdAt : Date
  updatedAt : Date
  deriving DecidableEq

/-- The `enum` of the `className` path. -/
def classNameEnum : List String :=
  ["madani-first", "madani-second", "hifz-beginner", "hifz-intermediate",
   "hifz-advanced", "nazera", "qaida"]

/-- The `enum` of the `grade` path. -/
def gradeEnum : List String :=
  ["A+", "A", "A-", "B+", "B", "B-", "C+", "C", "C-", "D", "F"]

/-- The virtual `isPassed`: `!['D', 'F'].includes(this.grade)`. -/
def isPassed (r : Result) : Bool :=
  !(["D", "F"].contains r.grade)

/-- The two collections. -/
structure Store where
  students : List Student
  results : List Result
  deriving DecidableEq

/-- Errors with which a store operation rejects. -/
inductive StoreError where
  | validation (paths : List String)
  | cast (path : String)
  | driver (reason : String)
  deriving DecidableEq

/-- What a handler does with the response object: the envelope with `success: true`
and its payload (the `message` text is left out), the envelope with `success: false`
and its `error` text, or a rejection. -/
inductive Reply (α : Type) where
  | success (status : Nat) (data : α)
  | failure (status : Nat) (error : String)
  | rejected (err : StoreError)
  deriving DecidableEq

/-- HTTP status written by the handler itself, if it wrote one. -/
def Reply.status {α : Type} : Reply α → Option Nat
  | .success st _ => some st
  | .failure st _ => some st
  | .rejected _ => none

/-- The `success` flag of the envelope written by the handler. -/
def Reply.successFlag {α : Type} : Reply α → Option Bool
  | .success _ _ => some true
  | .failure _ _ => some false
  | .rejected _ => none

/-- Payload of a successful reply. -/
def Reply.data? {α : Type} : Reply α → Option α
  | .success _ d => some d
  | _ => none

/-! ## Error texts of the controller -/

def msgRequired : String := "শিক্ষার্থী, পরীক্ষা এবং গ্রেড প্রয়োজন"

def msgStudentNotFound : String := "শিক্ষার্থী পাওয়া যায়নি"

def msgDuplicate : String := "এই শিক্ষার্থীর এই পরীক্ষার ফলাফল ইতিমধ্যে যুক্ত করা হয়েছে"

def msgResultNotFound : String := "ফলাফল পাওয়া যায়নি"

/-! ## Model operations (`Student.findById`, `Result.find`, `Result.create`, ...) -/

/-- `Student.findById(id)`. -/
def Student.findById (db : Store) (id : ObjectId) : Option Student :=
  db.students.find? (fun s => s._id == id)

/-- `Result.findById(id)`. -/
def Result.findById (db : Store) (id : ObjectId) : Option Result :=
  db.results.find? (fun r => r._id == id)

/-- Filter object passed to `find`, `findOne`, `countDocuments` and `$match`:
an equality constraint for each key that is set, `grade: { $nin: [...] }` apart. -/
structure ResultQuery where
  className : Option String := none
  exam : Option String := none
  studentId : Option ObjectId := none
  grade : Option String := none
  subject : Option String := none
  gradeNin : Option (List String) := none
  deriving DecidableEq

/-- Whether a stored document satisfies a filter. The values of `exam` and
`subject` go through the `trim` setter of their path when the filter is cast;
`className` and `grade` have no setter. -/
def ResultQuery.matches (q : ResultQuery) (r : Result) : Bool :=
  (match q.className with | none => true | some c => r.className == c) &&
  (match q.exam with | none => true | some e => r.exam == jsTrim e) &&
  (match q.studentId with | none => true | some s => r.studentId == s) &&
  (match q.grade with | none => true | some g => r.grade == g) &&
  (match q.subject with | none => true | some s => r.subject == some (jsTrim s)) &&
  (match q.gradeNin with | none => true | some gs => !(gs.contains r.grade))

/-- `Result.find(query)` in natural (insertion) order. -/
def Result.find (db : Store) (q : ResultQuery) : List Result :=
  db.results.filter q.matches

/-- `Result.findOne(query)`. -/
def Result.findOne (db : Store) (q : ResultQuery) : Option Result :=
  db.results.find? q.matches

/-- `Result.countDocuments(query)`. -/
def Result.countDocuments (db : Store) (q : ResultQuery) : Nat :=
  (db.results.filter q.matches).length

/-- Object handed to `Result.create`. -/
structure ResultDraft where
  studentId : ObjectId
  studentName : String
  className : String
  exam : String
  grade : String
  marks : Option ℚ
  subject : Option String
  remarks : Option String
  examDate : Option Date
  deriving DecidableEq

/-- Setters of the schema: `trim: true` on `studentName`, `exam`, `subject`, `remarks`. -/
def applySetters (d : ResultDraft) : ResultDraft :=
  { d with
    studentName := jsTrim d.studentName
    exam := jsTrim d.exam
    subject := d.subject.map jsTrim
    remarks := d.remarks.map jsTrim }

/-- Paths whose validators fail: `required` (a string must be non-empty), `enum`,
`min: 0`, `max: 100`. -/
def validationErrors (d : ResultDraft) : List String :=
  (if d.studentName == "" then ["studentName"] else []) ++
  (if classNameEnum.contains d.className then [] else ["className"]) ++
  (if d.exam == "" then ["exam"] else []) ++
  (if gradeEnum.contains d.grade then [] else ["grade"]) ++
  (match d.marks with
   | none => []
   | some m => if 0 ≤ m ∧ m ≤ 100 then [] else ["marks"])

/-- The identifier generated for an insert: one that no stored result has. -/
def freshId (rs : List Result) : ObjectId :=
  (rs.map (fun r => r._id)).foldr max 0 + 1

/-- The document inserted for a draft that went through the setters: the
default of `createdBy` and the two timestamps are added. -/
def newDocument (id : ObjectId) (now : Date) (d : ResultDraft) : Result :=
  { _id := id
    studentId := d.studentId
    studentName := d.studentName
    className := d.className
    exam := d.exam
    grade := d.grade
    marks := d.marks
    subject := d.subject
    remarks := d.remarks
    examDate := d.examDate
    createdBy := "principal"
    createdAt := now
    updatedAt := now }

/-- `Result.create(doc)`: setters, defaults, validation, then the insert with a
new `_id` and both timestamps set to the current time. -/
def Result.create (db : Store) (now : Date) (d : ResultDraft) :
    Except StoreError (Store × Result) :=
  if validationErrors (applySetters d) = [] then
    .ok ({ db with results := db.results ++ [newDocument (freshId db.results) now (applySetters d)] },
         newDocument (freshId db.results) now (applySetters d))
  else
    .error (.validation (validationErrors (applySetters d)))

/-- `doc.deleteOne()`: removes the document with the identifier of `doc`. -/
def Result.deleteOne (db : Store) (doc : Result) : Store :=
  { db with results := db.results.eraseP (fun r => r._id == doc._id) }

/-- Paths of a student document that `populate` can select. -/
inductive StudentField where
  | fullName | className | phone | fatherName | motherName | dateOfBirth
  deriving DecidableEq

/-- Student document reduced to `_id` and the selected paths. -/
structure PopulatedStudent where
  _id : ObjectId
  fullName : Option String
  className : Option String
  phone : Option String
  fatherName : Option String
  motherName : Option String
  dateOfBirth : Option Date
  deriving DecidableEq

/-- Field selection of `populate(path, select)`. -/
def Student.select (fields : List StudentField) (s : Student) : PopulatedStudent :=
  { _id := s._id
    fullName := if fields.contains .fullName then some s.fullName else none
    className := if fields.contains .className then some s.className else none
    phone := if fields.contains .phone then some s.phone else none
    fatherName := if fields.contains .fatherName then some s.fatherName else none
    motherName := if fields.contains .motherName then some s.motherName else none
    dateOfBirth := if fields.contains .dateOfBirth then some s.dateOfBirth else none }

/-- Result document whose `studentId` path has been populated: `student` is the
referenced document, `none` (JSON `null`) when no student has that identifier. The
stored paths, `studentName` and `className` among them, are those of `doc`. -/
structure PopulatedResult where
  doc : Result
  student : Option PopulatedStudent
  deriving DecidableEq

/-- `.populate('studentId', select)` on one document. -/
def populate (db : Store) (fields : List StudentField) (r : Result) : PopulatedResult :=
  { doc := r
    student := (Student.findById db r.studentId).map (Student.select fields) }

/-! ## Handlers -/

/-- Request body of `POST /`; `examDate` is a number of milliseconds. -/
structure CreateBody where
  studentId : Option ObjectId := none
  exam : Option String := none
  grade : Option String := none
  marks : Option ℚ := none
  subject : Option String := none
  remarks : Option String := none
  examDate : Option Date := none
  deriving DecidableEq

/-- The filter `duplicateQuery` of `createResult`. -/
def duplicateQuery (studentId : ObjectId) (exam : String) (subject : Option String) :
    ResultQuery :=
  { studentId := some studentId
    exam := some exam
    subject := if truthy subject then subject else none }

/-- The expression `examDate || new Date()`: a supplied date that is truthy is kept; a
missing one, and the falsy number `0`, give the current time. -/
def examDateOrNow (examDate : Option Date) (now : Date) : Date :=
  match examDate with
  | some d => if d = 0 then now else d
  | none => now

/-- The object literal that `createResult` hands to `Result.create`. -/
def createDraft (student : Student) (studentId : ObjectId) (exam grade : String)
    (body : CreateBody) (now : Date) : ResultDraft :=
  { studentId := studentId
    studentName := student.fullName
    className := student.className
    exam := exam
    grade := grade
    marks := body.marks
    subject := body.subject
    remarks := body.remarks
    examDate := some (examDateOrNow body.examDate now) }

/-- Handler `createResult`. -/
def createResult (db : Store) (now : Date) (body : CreateBody) : Store × Reply Result :=
  match body.studentId, body.exam, body.grade with
  | some studentId, some exam, some grade =>
    if !truthyStr exam || !truthyStr grade then
      (db, .failure 400 msgRequired)
    else
      match Student.findById db studentId with
      | none => (db, .failure 404 msgStudentNotFound)
      | some student =>
        match Result.findOne db (duplicateQuery studentId exam body.subject) with
        | some _ => (db, .failure 400 msgDuplicate)
        | none =>
          match Result.create db now (createDraft student studentId exam grade body now) with
          | .ok (db', result) => (db', .success 201 result)
          | .error e => (db, .rejected e)
  | _, _, _ => (db, .failure 400 msgRequired)

/-- Handler `deleteResult`; a successful reply carries the empty object. -/
def deleteResult (db : Store) (id : ObjectId) : Store × Reply Unit :=
  match Result.findById db id with
  | none => (db, .failure 404 msgResultNotFound)
  | some result => (Result.deleteOne db result, .success 200 ())

/-- Handler `getResult`. -/
def getResult (db : Store) (id : ObjectId) : Reply PopulatedResult :=
  match Result.findById db id with
  | none => .failure 404 msgResultNotFound
  | some result =>
    .success 200 (populate db
      [.fullName, .className, .dateOfBirth, .phone, .fatherName, .motherName] result)

/-! ## Statistics -/

/-- Whether a document satisfies the `$match` stage of `Result.aggregate`. Mongoose
does not cast an aggregation pipeline, so no setter runs: each value is compared as the
caller gave it. -/
def ResultQuery.matchesRaw (q : ResultQuery) (r : Result) : Bool :=
  (match q.className with | none => true | some c => r.className == c) &&
  (match q.exam with | none => true | some e => r.exam == e) &&
  (match q.studentId with | none => true | some s => r.studentId == s) &&
  (match q.grade with | none => true | some g => r.grade == g) &&
  (match q.subject with | none => true | some s => r.subject == some s) &&
  (match q.gradeNin with | none => true | some gs => !(gs.contains r.grade))

/-- Accumulator update of `$group`: the group of key `k` is updated with `f`, or
started with `new` after the groups seen so far. -/
def upsert {β : Type} (k : String) (f : β → β) (new : β) :
    List (String × β) → List (String × β)
  | [] => [(k, new)]
  | (k', b) :: rest =>
    if k' = k then (k', f b) :: rest else (k', b) :: upsert k f new rest

/-- The `$group` stage: one accumulator per distinct key, folded over the documents. -/
def groupFold {β : Type} (key : Result → String) (init : β) (step : β → Result → β)
    (docs : List Result) : List (String × β) :=
  docs.foldl (fun acc r => upsert (key r) (fun b => step b r) (step init r) acc) []

/-- Entry of `gradeDistribution`: `{ _id: grade, count }`. -/
structure GradeCount where
  _id : String
  count : Nat
  deriving DecidableEq

/-- Entry of `classwiseStats`: `{ _id: className, count, avgMarks }`; `avgMarks` is
`null` when no document of the group has marks. -/
structure ClassStats where
  _id : String
  count : Nat
  avgMarks : Option ℚ
  deriving DecidableEq

/-- The pipeline `[$match, $group by grade with $sum: 1, $sort by _id ascending]`. -/
def gradeDistribution (db : Store) (q : ResultQuery) : List GradeCount :=
  ((groupFold (fun r => r.grade) 0 (fun n _ => n + 1) (db.results.filter q.matchesRaw)).map
    (fun kv => ({ _id := kv.1, count := kv.2 } : GradeCount))).insertionSort
      (fun a b => a._id ≤ b._id)

/-- Accumulators of the class-wise `$group`: `$sum: 1`, and for `$avg` the sum and the
number of the marks that are present. -/
structure ClassAcc where
  count : Nat
  marksSum : ℚ
  marksCount : Nat

/-- One document added to the accumulators of its class. -/
def ClassAcc.step (a : ClassAcc) (r : Result) : ClassAcc :=
  match r.marks with
  | none => { a with count := a.count + 1 }
  | some m => { count := a.count + 1, marksSum := a.marksSum + m, marksCount := a.marksCount + 1 }

/-- The pipeline `[$match, $group by className with $sum: 1 and $avg of marks]`. -/
def classwiseStats (db : Store) (q : ResultQuery) : List ClassStats :=
  (groupFold (fun r => r.className) ({ count := 0, marksSum := 0, marksCount := 0 } : ClassAcc)
    ClassAcc.step (db.results.filter q.matchesRaw)).map
    (fun kv => ({ _id := kv.1, count := kv.2.count,
                  avgMarks := if kv.2.marksCount = 0 then none
                    else some (kv.2.marksSum / kv.2.marksCount) } : ClassStats))

/-- Division of two numbers; `none` stands for the non-finite value (`NaN` or an
infinity) that a zero divisor gives. -/
def jsDiv (a b : ℚ) : Option ℚ :=
  if b = 0 then none else some (a / b)

/-- `x.toFixed(2)` read back by `parseFloat`: `n / 100` for the integer `n` that makes
`n / 100 - x` closest to zero, the larger `n` when there are two; the sign of a
negative `x` is set aside first. -/
def toFixed2 (x : ℚ) : ℚ :=
  if x < 0 then -((⌊-x * 100 + 1 / 2⌋ : ℤ) : ℚ) / 100 else ((⌊x * 100 + 1 / 2⌋ : ℤ) : ℚ) / 100

/-- The expression
`totalResults > 0 ? ((passed / totalResults) * 100).toFixed(2) : 0`, then `parseFloat`. -/
def passPercentage (passed totalResults : Nat) : Option ℚ :=
  if totalResults > 0 then
    (jsDiv passed totalResults).map (fun ratio => toFixed2 (ratio * 100))
  else
    some 0

/-- Payload of `getResultsStatistics`. -/
structure Statistics where
  totalResults : Nat
  passed : Nat
  failed : Int
  passPercentage : Option ℚ
  gradeDistribution : List GradeCount
  classwiseStats : List ClassStats
  deriving DecidableEq

/-- The filter built by `getResultsStatistics` from `req.query`. -/
def statisticsQuery (className exam : Option String) : ResultQuery :=
  { className := if truthy className then className else none
    exam := if truthy exam then exam else none }

/-- Handler `getResultsStatistics`. -/
def getResultsStatistics (db : Store) (className exam : Option String) : Reply Statistics :=
  let query := statisticsQuery className exam
  let totalResults := Result.countDocuments db query
  let passed := Result.countDocuments db { query with gradeNin := some ["D", "F"] }
  .success 200
    { totalResults := totalResults
      passed := passed
      failed := (totalResults : Int) - passed
      passPercentage := passPercentage passed totalResults
      gradeDistribution := gradeDistribution db query
      classwiseStats := classwiseStats db query }

/-! ## Numbers from strings, sort keys, cursors -/

/-- Value of a character as a digit in the given radix. -/
def digitValue (radix : Nat) (c : Char) : Option Nat :=
  let n := c.toNat
  let v : Option Nat :=
    if 48 ≤ n ∧ n ≤ 57 then some (n - 48)
    else if 97 ≤ n ∧ n ≤ 122 then some (n - 87)
    else if 65 ≤ n ∧ n ≤ 90 then some (n - 55)
    else none
  v.filter (fun d => d < radix)

/-- Value of a run of digits. -/
def digitsValue (radix : Nat) (ds : List Char) : Nat :=
  ds.foldl (fun acc c => acc * radix + (digitValue radix c).getD 0) 0

/-- `parseInt(string)` with no radix argument: leading white space is skipped, a sign is
read, a `0x` or `0X` prefix selects radix 16, and the longest run of digits is the value;
`none` is `NaN`. Values are exact (the source rounds beyond 2^53). -/
def parseInt (s : String) : Option Int :=
  let cs := s.data.dropWhile isJsWhitespace
  let signed : Bool × List Char :=
    match cs with
    | '-' :: rest => (true, rest)
    | '+' :: rest => (false, rest)
    | _ => (false, cs)
  let based : Nat × List Char :=
    match signed.2 with
    | '0' :: 'x' :: rest => (16, rest)
    | '0' :: 'X' :: rest => (16, rest)
    | _ => (10, signed.2)
  let ds := based.2.takeWhile (fun c => (digitValue based.1 c).isSome)
  if ds.isEmpty then none
  else some (if signed.1 then -(digitsValue based.1 ds : Int) else (digitsValue based.1 ds : Int))

/-- Values of the stored paths as the server compares them in a sort. -/
inductive BsonValue where
  | null
  | number (x : ℚ)
  | string (s : String)
  | objectId (id : ObjectId)
  | date (d : Date)
  deriving DecidableEq

/-- Position of a type in the comparison order of the server:
null, numbers, strings, object identifiers, dates. -/
def BsonValue.rank : BsonValue → Nat
  | .null => 1
  | .number _ => 2
  | .string _ => 3
  | .objectId _ => 7
  | .date _ => 9

/-- Sort order of the server: by type first, then by value; strings by code points. -/
def BsonValue.le : BsonValue → BsonValue → Bool
  | .number x, .number y => decide (x ≤ y)
  | .string s, .string t => decide (s ≤ t)
  | .objectId a, .objectId b => decide (a ≤ b)
  | .date a, .date b => decide (a ≤ b)
  | a, b => decide (a.rank ≤ b.rank)

/-- Sort key of a document for a path name; a path that is not stored, or has no value,
sorts as null. -/
def Result.field (r : Result) (path : String) : BsonValue :=
  if path = "_id" then .objectId r._id
  else if path = "studentId" then .objectId r.studentId
  else if path = "studentName" then .string r.studentName
  else if path = "className" then .string r.className
  else if path = "exam" then .string r.exam
  else if path = "grade" then .string r.grade
  else if path = "marks" then (match r.marks with | some m => .number m | none => .null)
  else if path = "subject" then (match r.subject with | some s => .string s | none => .null)
  else if path = "remarks" then (match r.remarks with | some s => .string s | none => .null)
  else if path = "examDate" then (match r.examDate with | some d => .date d | none => .null)
  else if path = "createdBy" then .string r.createdBy
  else if path = "createdAt" then .date r.createdAt
  else if path = "updatedAt" then .date r.updatedAt
  else .null

/-- The order `.sort({ [path]: 1 })` when `ascending`, `.sort({ [path]: -1 })` otherwise. -/
def sortRel (path : String) (ascending : Bool) (a b : Result) : Prop :=
  if ascending then (a.field path).le (b.field path) = true
  else (b.field path).le (a.field path) = true

instance (path : String) (ascending : Bool) : DecidableRel (sortRel path ascending) :=
  fun a b => by unfold sortRel; exact inferInstance

/-- `.sort(...)` on one path; documents with equal keys keep their stored order. -/
def sortResults (path : String) (ascending : Bool) (docs : List Result) : List Result :=
  docs.insertionSort (sortRel path ascending)

/-- `.skip(skip).limit(limit)` as the server runs them: the skip first, then the limit.
A limit of zero is no limit and a negative limit is its absolute value; a negative skip
and a `NaN` are refused. -/
def skipLimit {α : Type} (docs : List α) (skip limit : Option Int) :
    Except StoreError (List α) :=
  match skip, limit with
  | some s, some l =>
    if s < 0 then .error (.driver "skip")
    else if l = 0 then .ok (docs.drop s.toNat)
    else .ok ((docs.drop s.toNat).take l.natAbs)
  | none, _ => .error (.driver "skip")
  | _, none => .error (.driver "limit")

/-! ## List handlers -/

/-- The parameters `req.query` of `GET /`. -/
structure ListQuery where
  page : Option String := none
  limit : Option String := none
  className : Option String := none
  exam : Option String := none
  studentId : Option ObjectId := none
  grade : Option String := none
  sortBy : Option String := none
  sortOrder : Option String := none
  deriving DecidableEq

/-- The `pagination` object of the reply; `none` is a non-finite number. -/
structure Pagination where
  currentPage : Option Int
  totalPages : Option Int
  totalResults : Nat
  resultsPerPage : Option Int
  deriving DecidableEq

/-- The filter built by `getAllResults`. -/
def listFilter (q : ListQuery) : ResultQuery :=
  { className := if truthy q.className then q.className else none
    exam := if truthy q.exam then q.exam else none
    studentId := q.studentId
    grade := if truthy q.grade then q.grade else none }

/-- `parseInt(page)` with the default `page = 1`. -/
def ListQuery.pageNumber (q : ListQuery) : Option Int :=
  match q.page with
  | none => some 1
  | some s => parseInt s

/-- `parseInt(limit)` with the default `limit = 10`. -/
def ListQuery.limitNumber (q : ListQuery) : Option Int :=
  match q.limit with
  | none => some 10
  | some s => parseInt s

/-- `Math.ceil(total / limit)`. -/
def totalPages (total : Nat) (limit : Option Int) : Option Int :=
  match limit with
  | none => none
  | some l => (jsDiv total l).map (fun x => ⌈x⌉)

/-- Handler `getAllResults`. -/
def getAllResults (db : Store) (q : ListQuery) :
    Reply (List PopulatedResult × Pagination) :=
  let page := q.pageNumber
  let limit := q.limitNumber
  let skip : Option Int := page.bind (fun p => limit.map (fun l => (p - 1) * l))
  let query := listFilter q
  match skipLimit (sortResults (q.sortBy.getD "createdAt") (q.sortOrder == some "asc")
      (Result.find db query)) skip limit with
  | .error e => .rejected e
  | .ok results =>
    .success 200
      (results.map (populate db [.fullName, .className, .phone]),
       { currentPage := page
         totalPages := totalPages (Result.countDocuments db query) limit
         totalResults := Result.countDocuments db query
         resultsPerPage := limit })

/-- The filter built by `getResultsByClass`. -/
def classFilter (className : String) (exam : Option String) : ResultQuery :=
  { className := some className
    exam := if truthy exam then exam else none }

/-- Handler `getResultsByClass`; the payload is `count` and `data`. -/
def getResultsByClass (db : Store) (className : String) (exam : Option String) :
    Reply (Nat × List PopulatedResult) :=
  let results := (sortResults "studentName" true
    (Result.find db (classFilter className exam))).map (populate db [.fullName])
  .success 200 (results.length, results)

/-! ## Update -/

/-- Request body of `PUT /:id`, used as the update document: the keys that are set
are written with `$set`; keys outside the schema are dropped. -/
structure UpdateBody where
  studentId : Option ObjectId := none
  studentName : Option String := none
  className : Option String := none
  exam : Option String := none
  grade : Option String := none
  marks : Option ℚ := none
  subject : Option String := none
  remarks : Option String := none
  examDate : Option Date := none
  createdBy : Option String := none
  deriving DecidableEq

/-- The update document after casting: the `trim` setters run on the values. -/
def castUpdate (u : UpdateBody) : UpdateBody :=
  { u with
    studentName := u.studentName.map jsTrim
    exam := u.exam.map jsTrim
    subject := u.subject.map jsTrim
    remarks := u.remarks.map jsTrim }

/-- Update validators (`runValidators: true`): the validators of the paths that the
update sets, on the cast values. -/
def updateErrors (u : UpdateBody) : List String :=
  (match u.studentName with
   | some s => if s == "" then ["studentName"] else []
   | none => []) ++
  (match u.className with
   | some c => if classNameEnum.contains c then [] else ["className"]
   | none => []) ++
  (match u.exam with
   | some e => if e == "" then ["exam"] else []
   | none => []) ++
  (match u.grade with
   | some g => if gradeEnum.contains g then [] else ["grade"]
   | none => []) ++
  (match u.marks with
   | some m => if 0 ≤ m ∧ m ≤ 100 then [] else ["marks"]
   | none => [])

/-- The stored document after the cast update: each key that is set replaces the
stored value, the others are kept; `updatedAt` is the current time. -/
def applyUpdate (r : Result) (u : UpdateBody) (now : Date) : Result :=
  { r with
    studentId := u.studentId.getD r.studentId
    studentName := u.studentName.getD r.studentName
    className := u.className.getD r.className
    exam := u.exam.getD r.exam
    grade := u.grade.getD r.grade
    marks := u.marks.or r.marks
    subject := u.subject.or r.subject
    remarks := u.remarks.or r.remarks
    examDate := u.examDate.or r.examDate
    createdBy := u.createdBy.getD r.createdBy
    updatedAt := now }

/-- The first element that satisfies `p` is replaced by its image under `f`. -/
def updateFirst {α : Type} (p : α → Bool) (f : α → α) : List α → List α
  | [] => []
  | a :: rest => if p a then f a :: rest else a :: updateFirst p f rest

/-- `Result.findByIdAndUpdate(id, update, { new: true, runValidators: true })`: the
updated document, or `null` when no document has the identifier. -/
def Result.findByIdAndUpdate (db : Store) (now : Date) (id : ObjectId) (u : UpdateBody) :
    Except StoreError (Store × Option Result) :=
  if updateErrors (castUpdate u) = [] then
    let updated := updateFirst (fun r => r._id == id)
      (fun r => applyUpdate r (castUpdate u) now) db.results
    .ok ({ db with results := updated },
         (Result.findById db id).map (fun r => applyUpdate r (castUpdate u) now))
  else
    .error (.validation (updateErrors (castUpdate u)))

/-- Handler `updateResult`. -/
def updateResult (db : Store) (now : Date) (id : ObjectId) (body : UpdateBody) :
    Store × Reply (Option Result) :=
  match Result.findById db id with
  | none => (db, .failure 404 msgResultNotFound)
  | some _ =>
    match Result.findByIdAndUpdate db now id body with
    | .ok (db', result) => (db', .success 200 result)
    | .error e => (db, .rejected e)

/-! ## Remaining list handlers -/

/-- The order `.sort({ examDate: -1, createdAt: -1 })`. -/
def byExamDateThenCreatedAt (a b : Result) : Prop :=
  if (a.field "examDate") = (b.field "examDate") then (b.field "createdAt").le (a.field "createdAt") = true
  else (b.field "examDate").le (a.field "examDate") = true

instance : DecidableRel byExamDateThenCreatedAt :=
  fun a b => by unfold byExamDateThenCreatedAt; exact inferInstance

/-- Handler `getResultsByStudent`; the payload is `count` and `data`. -/
def getResultsByStudent (db : Store) (studentId : ObjectId) : Reply (Nat × List Result) :=
  let results := (Result.find db { studentId := some studentId }).insertionSort
    byExamDateThenCreatedAt
  .success 200 (results.length, results)

/-- The expression `parseInt(req.params.limit) || 10`; an absent parameter parses to
`NaN`. -/
def recentLimit (param : Option String) : Int :=
  match param.bind parseInt with
  | none => 10
  | some n => if n = 0 then 10 else n

/-- Handler `getRecentResults`; the payload is `count` and `data`. -/
def getRecentResults (db : Store) (param : Option String) :
    Reply (Nat × List PopulatedResult) :=
  match skipLimit (sortResults "createdAt" false (Result.find db {})) (some 0)
      (some (recentLimit param)) with
  | .error e => .rejected e
  | .ok results =>
    .success 200 ((results.map (populate db [.fullName, .className])).length,
      results.map (populate db [.fullName, .className]))

/-! ## Router -/

/-- Request methods. -/
inductive Method where
  | GET | POST | PUT | DELETE
  deriving DecidableEq

/-- Handlers exported by the controller. -/
inductive Handler where
  | createResult | getAllResults | getResult | updateResult | deleteResult
  | getResultsByStudent | getResultsByClass | getResultsStatistics | getRecentResults
  deriving DecidableEq

/-- Segment of a route path: a literal or a named parameter. -/
inductive Segment where
  | lit (text : String)
  | param (name : String)
  deriving DecidableEq

/-- One `router.METHOD(path, handler)` call. -/
structure Route where
  method : Method
  path : List Segment
  handler : Handler
  deriving DecidableEq

/-- The calls of `routes/results.js`, in registration order. -/
def router : List Route :=
  [ { method := .GET, path := [.lit "statistics"], handler := .getResultsStatistics },
    { method := .GET, path := [.lit "student", .param "studentId"], handler := .getResultsByStudent },
    { method := .GET, path := [.lit "class", .param "className"], handler := .getResultsByClass },
    { method := .POST, path := [], handler := .createResult },
    { method := .GET, path := [], handler := .getAllResults },
    { method := .GET, path := [.param "id"], handler := .getResult },
    { method := .PUT, path := [.param "id"], handler := .updateResult },
    { method := .DELETE, path := [.param "id"], handler := .deleteResult } ]

/-- A string with its ASCII capital letters in lower case. -/
def asciiLower (s : String) : String :=
  String.mk (s.data.map Char.toLower)

/-- A route path against the segments of a request path (the text between the
slashes): a literal matches without regard to ASCII case, a parameter takes one
non-empty segment. The result is `req.params`. -/
def matchPath : List Segment → List String → Option (List (String × String))
  | [], [] => some []
  | .lit text :: pattern, seg :: segs =>
    if asciiLower seg = asciiLower text then matchPath pattern segs else none
  | .param name :: pattern, seg :: segs =>
    if seg = "" then none else (matchPath pattern segs).map (fun ps => (name, seg) :: ps)
  | _, _ => none

/-- First route, in registration order, whose method and path match. -/
def dispatchIn : List Route → Method → List String → Option (Handler × List (String × String))
  | [], _, _ => none
  | route :: rest, method, segs =>
    if route.method = method then
      match matchPath route.path segs with
      | some params => some (route.handler, params)
      | none => dispatchIn rest method segs
    else dispatchIn rest method segs

/-- Dispatch of a request by the results router; `none` when no route matches and
the request falls through. -/
def dispatch (method : Method) (segs : List String) :
    Option (Handler × List (String × String)) :=
  dispatchIn router method segs

/-! ## Specification predicates -/

/-- The draft built by `createResult` passes the validators of the schema. -/
def SchemaValid (student : Student) (exam grade : String) (marks : Option ℚ) : Prop :=
  jsTrim student.fullName ≠ "" ∧ student.className ∈ classNameEnum ∧ jsTrim exam ≠ "" ∧
    grade ∈ gradeEnum ∧ ∀ m, marks = some m → 0 ≤ m ∧ m ≤ 100

/-- Two results for the same student, exam and subject: the subjects are both absent, or
both present and equal. -/
def SameKey (a b : Result) : Prop :=
  a.studentId = b.studentId ∧ a.exam = b.exam ∧ a.subject = b.subject

/-- Stores reached from one without results by `createResult` and `deleteResult` calls
run one after the other; the student collection may change between calls. -/
inductive Reachable : Store → Prop where
  | init (students : List Student) : Reachable { students := students, results := [] }
  | create {db : Store} (now : Date) (body : CreateBody) :
      Reachable db → Reachable (createResult db now body).1
  | delete {db : Store} (id : ObjectId) :
      Reachable db → Reachable (deleteResult db id).1
  | students {db : Store} (students : List Student) :
      Reachable db → Reachable { db with students := students }

/-- Stores that follow `db` while the result `id` is neither updated nor deleted: the
student collection may be rewritten, results may be created, other results deleted. -/
inductive Later (id : ObjectId) : Store → Store → Prop where
  | refl (db : Store) : Later id db db
  | students {db db' : Store} (students : List Student) :
      Later id db db' → Later id db { db' with students := students }
  | create {db db' : Store} (now : Date) (body : CreateBody) :
      Later id db db' → Later id db (createResult db' now body).1
  | delete {db db' : Store} (other : ObjectId) :
      other ≠ id → Later id db db' → Later id db (deleteResult db' other).1

/-- Every stored result has its own identifier (the index on `_id`). -/
def UniqueIds (db : Store) : Prop :=
  (db.results.map (fun r => r._id)).Nodup

/-- The records that `getResultsByClass` is to return: the class name is `className`
and, when `exam` is supplied and non-empty, the exam is `exam` without surrounding
white space. -/
def inClass (className : String) (exam : Option String) (r : Result) : Bool :=
  r.className == className &&
    (match exam with
     | none => true
     | some e => e == "" || r.exam == jsTrim e)

/-- Accumulator of the group with key `k`, if there is one. -/
def valueOf {β : Type} (acc : List (String × β)) (k : String) : Option β :=
  (acc.find? (fun kv => kv.1 == k)).map (fun kv => kv.2)

/-- The constraints that the list filter is to impose: for each of `className`,
`exam`, `studentId` and `grade` that is supplied and non-empty, the stored value equals
the supplied one (for `exam`, the supplied one without surrounding white space). -/
def satisfiesList (q : ListQuery) (r : Result) : Bool :=
  (match q.className with | some c => c == "" || r.className == c | none => true) &&
  (match q.exam with | some e => e == "" || r.exam == jsTrim e | none => true) &&
  (match q.studentId with | some s => r.studentId == s | none => true) &&
  (match q.grade with | some g => g == "" || r.grade == g | none => true)

/-- The `data` array of a reply of `getAllResults`; empty when there is no reply. -/
def pageData (reply : Reply (List PopulatedResult × Pagination)) : List PopulatedResult :=
  match reply with
  | .success _ d => d.1
  | _ => []

/-! ## Example data -/

def exStudent : Student :=
  { _id := 1, fullName := "Abdullah", className := "nazera", phone := "01700000000",
    fatherName := "Karim", motherName := "Amina", dateOfBirth := 0 }

def exStore : Store := { students := [exStudent], results := [] }

def exBody : CreateBody :=
  { studentId := some 1, exam := some "Final", grade := some "A" }

def exUntrimmedStudent : Student :=
  { exStudent with fullName := " Abdullah " }

def exRenamedStudent : Student :=
  { exStudent with fullName := "Abdur Rahman", className := "qaida" }

def exCreated : Result :=
  newDocument 1 10 (applySetters (createDraft exStudent 1 "Final" "A" exBody 10))

def exTwoSubjects : Store :=
  (createResult (createResult exStore 10 { exBody with subject := some "Math" }).1 20
    { exBody with subject := some "Arabic" }).1

def exOneResult : Store :=
  (createResult exStore 10 exBody).1

def exThreeResults : Store :=
  (createResult (createResult exOneResult 20 { exBody with exam := some "Midterm", grade := some "B" }).1
    30 { exBody with exam := some "Quiz", grade := some "F" }).1

def exManyResults : Store :=
  { students := [exStudent]
    results := (List.range 25).map (fun i => { exCreated with _id := i + 1, createdAt := 10 + i }) }

def exOrphanStore : Store :=
  { students := [], results := [exCreated] }

def exSecondStudent : Student :=
  { exStudent with _id := 2, fullName := "Bilal" }

def exTwoStudents : Store :=
  (createResult (createResult { students := [exStudent, exSecondStudent], results := [] } 10 exBody).1
    20 { exBody with studentId := some 2 }).1

def exPagedQuery : ListQuery :=
  { limit := some "2" }

def exPageParam (p : Nat) : String :=
  if p = 1 then "1" else "2"

def exFilterQuery : ListQuery :=
  { exam := some " Midterm", grade := some "B" }

def exFilteredPage : List PopulatedResult × Pagination :=
  match getAllResults exThreeResults exFilterQuery with
  | .success _ d => d
  | _ => ([], { currentPage := none, totalPages := none, totalResults := 0, resultsPerPage := none })

/-! # Theorems -/

/-! ## Helper lemmas -/

theorem jsTrim_empty : jsTrim "" = "" := by decide

theorem ne_empty_of_jsTrim_ne {s : String} (h : jsTrim s ≠ "") : s ≠ "" := by
  rintro rfl
  exact h jsTrim_empty

theorem ne_empty_of_mem_gradeEnum {g : String} (h : g ∈ gradeEnum) : g ≠ "" := by
  rintro rfl
  revert h
  decide

theorem validationErrors_createDraft (student : Student) (studentId : ObjectId)
    (exam grade : String) (body : CreateBody) (now : Date) :
    validationErrors (applySetters (createDraft student studentId exam grade body now)) = [] ↔
      SchemaValid student exam grade body.marks := by
  unfold validationErrors applySetters createDraft SchemaValid
  rcases hm : body.marks with _ | m
  · simp [List.append_eq_nil]
  · simp [List.append_eq_nil]

theorem createResult_ok {db : Store} (now : Date) {body : CreateBody} {studentId : ObjectId}
    {exam grade : String} {student : Student}
    (hs : body.studentId = some studentId) (he : body.exam = some exam)
    (hg : body.grade = some grade) (hexam : exam ≠ "") (hgrade : grade ≠ "")
    (hst : Student.findById db studentId = some student)
    (hdup : Result.findOne db (duplicateQuery studentId exam body.subject) = none)
    (hv : validationErrors (applySetters (createDraft student studentId exam grade body now)) = []) :
    createResult db now body =
      ({ db with results := db.results ++ [newDocument (freshId db.results) now
          (applySetters (createDraft student studentId exam grade body now))] },
       .success 201 (newDocument (freshId db.results) now
          (applySetters (createDraft student studentId exam grade body now)))) := by
  have hcond : (!truthyStr exam || !truthyStr grade) = false := by
    simp [truthyStr, hexam, hgrade]
  simp [createResult, hs, he, hg, hcond, hst, hdup, Result.create, hv]

theorem createResult_duplicate {db : Store} {now : Date} {body : CreateBody}
    {studentId : ObjectId} {exam grade : String} {student : Student}
    (hs : body.studentId = some studentId) (he : body.exam = some exam)
    (hg : body.grade = some grade) (hexam : exam ≠ "") (hgrade : grade ≠ "")
    (hst : Student.findById db studentId = some student)
    (hdup : (Result.findOne db (duplicateQuery studentId exam body.subject)).isSome) :
    createResult db now body = (db, .failure 400 msgDuplicate) := by
  have hcond : (!truthyStr exam || !truthyStr grade) = false := by
    simp [truthyStr, hexam, hgrade]
  rcases hd : Result.findOne db (duplicateQuery studentId exam body.subject) with _ | r
  · simp [hd] at hdup
  · simp [createResult, hs, he, hg, hcond, hst, hd]

/-- Every outcome of `createResult`, with the conditions under which it arises. -/
theorem createResult_cases (db : Store) (now : Date) (body : CreateBody) :
    (createResult db now body = (db, .failure 400 msgRequired) ∧
      (body.studentId = none ∨ truthy body.exam = false ∨ truthy body.grade = false)) ∨
    ∃ studentId exam grade, body.studentId = some studentId ∧ body.exam = some exam ∧
      body.grade = some grade ∧ exam ≠ "" ∧ grade ≠ "" ∧
      ((createResult db now body = (db, .failure 404 msgStudentNotFound) ∧
          Student.findById db studentId = none) ∨
       ∃ student, Student.findById db studentId = some student ∧
        ((createResult db now body = (db, .failure 400 msgDuplicate) ∧
            (Result.findOne db (duplicateQuery studentId exam body.subject)).isSome) ∨
         (Result.findOne db (duplicateQuery studentId exam body.subject) = none ∧
          ((validationErrors (applySetters (createDraft student studentId exam grade body now)) ≠ [] ∧
            createResult db now body = (db, .rejected (.validation (validationErrors
              (applySetters (createDraft student studentId exam grade body now)))))) ∨
           (validationErrors (applySetters (createDraft student studentId exam grade body now)) = [] ∧
            createResult db now body =
              ({ db with results := db.results ++ [newDocument (freshId db.results) now
                  (applySetters (createDraft student studentId exam grade body now))] },
               .success 201 (newDocument (freshId db.results) now
                  (applySetters (createDraft student studentId exam grade body now))))))))) := by
  unfold createResult
  rcases hs : body.studentId with _ | studentId
  · left; simp
  rcases he : body.exam with _ | exam
  · left; simp [truthy]
  rcases hg : body.grade with _ | grade
  · left; simp [truthy]
  by_cases hexam : exam = ""
  · left; subst hexam; simp [truthy, truthyStr]
  by_cases hgrade : grade = ""
  · left; subst hgrade; simp [truthy, truthyStr]
  right
  refine ⟨studentId, exam, grade, rfl, rfl, rfl, hexam, hgrade, ?_⟩
  have hcond : (!truthyStr exam || !truthyStr grade) = false := by
    simp [truthyStr, hexam, hgrade]
  simp only [hcond, Bool.false_eq_true, if_false]
  rcases hst : Student.findById db studentId with _ | student
  · left; simp
  right
  refine ⟨student, rfl, ?_⟩
  rcases hdup : Result.findOne db (duplicateQuery studentId exam body.subject) with _ | r
  · right
    refine ⟨rfl, ?_⟩
    by_cases hv : validationErrors (applySetters (createDraft student studentId exam grade body now)) = []
    · right; simp [Result.create, hv]
    · left; simp [Result.create, hv]
  · left; simp

theorem findById_students_eq {db db' : Store} (h : db'.students = db.students) (id : ObjectId) :
    Student.findById db' id = Student.findById db id := by
  simp [Student.findById, h]

theorem duplicateQuery_matches_iff (studentId : ObjectId) (exam : String)
    (subject : Option String) (r : Result) :
    (duplicateQuery studentId exam subject).matches r = true ↔
      r.studentId = studentId ∧ r.exam = jsTrim exam ∧
        (truthy subject = true → r.subject = subject.map jsTrim) := by
  unfold duplicateQuery ResultQuery.matches
  rcases subject with _ | s
  · simp [truthy, and_comm]
  · by_cases hs : truthy (some s) = true
    · simp [hs, and_comm, and_assoc]
    · simp [hs, and_comm]

theorem le_foldr_max (l : List Nat) {x : Nat} (h : x ∈ l) : x ≤ l.foldr max 0 := by
  induction l with
  | nil => cases h
  | cons a l ih =>
    simp only [List.foldr_cons]
    rcases List.mem_cons.1 h with rfl | h
    · exact le_max_left _ _
    · exact le_trans (ih h) (le_max_right _ _)

theorem freshId_not_mem (rs : List Result) : freshId rs ∉ rs.map (fun r => r._id) := by
  intro h
  have := le_foldr_max _ h
  unfold freshId at this
  omega

/-- The results after `createResult`: unchanged, or one new document at the end whose key
no stored result has and whose identifier is new. -/
theorem createResult_results (db : Store) (now : Date) (body : CreateBody) :
    (createResult db now body).1.students = db.students ∧
    ((createResult db now body).1.results = db.results ∨
      ∃ doc, (createResult db now body).1.results = db.results ++ [doc] ∧
        doc._id = freshId db.results ∧ ∀ r ∈ db.results, ¬SameKey r doc) := by
  rcases createResult_cases db now body with ⟨h, -⟩ | ⟨sId, exam, grade, hs, he, hg, hne, hng, h⟩
  · rw [h]; exact ⟨rfl, Or.inl rfl⟩
  rcases h with ⟨h, -⟩ | ⟨student, hst, h⟩
  · rw [h]; exact ⟨rfl, Or.inl rfl⟩
  rcases h with ⟨h, -⟩ | ⟨hdup, h⟩
  · rw [h]; exact ⟨rfl, Or.inl rfl⟩
  rcases h with ⟨-, h⟩ | ⟨hv, h⟩
  · rw [h]; exact ⟨rfl, Or.inl rfl⟩
  rw [h]
  refine ⟨rfl, Or.inr ⟨_, rfl, rfl, ?_⟩⟩
  intro r hr hk
  rw [Result.findOne, List.find?_eq_none] at hdup
  apply hdup r hr
  rw [duplicateQuery_matches_iff]
  obtain ⟨h1, h2, h3⟩ := hk
  refine ⟨h1, h2, fun _ => h3⟩

theorem deleteResult_results (db : Store) (id : ObjectId) :
    (deleteResult db id).1.students = db.students ∧
      (deleteResult db id).1.results.Sublist db.results := by
  unfold deleteResult
  rcases Result.findById db id with _ | r
  · exact ⟨rfl, List.Sublist.refl _⟩
  · exact ⟨rfl, List.eraseP_sublist _⟩

/-- Unique identifiers and pairwise different keys hold in every reachable store. -/
theorem reachable_invariant (db : Store) (h : Reachable db) :
    (db.results.map (fun r => r._id)).Nodup ∧
      db.results.Pairwise (fun a b => ¬SameKey a b) := by
  induction h with
  | init students => exact ⟨List.nodup_nil, List.Pairwise.nil⟩
  | @create db now body _ ih =>
    rcases (createResult_results db now body).2 with h | ⟨doc, h, hid, hkey⟩
    · rw [h]; exact ih
    · rw [h]
      constructor
      · rw [List.map_append, List.nodup_append]
        refine ⟨ih.1, List.nodup_singleton _, ?_⟩
        intro x hx hx'
        simp only [List.map_cons, List.map_nil, List.mem_singleton] at hx'
        subst hx'
        rw [hid] at hx
        exact freshId_not_mem _ hx
      · rw [List.pairwise_append]
        refine ⟨ih.2, List.pairwise_singleton _ _, ?_⟩
        intro a ha b hb
        rw [List.mem_singleton] at hb
        subst hb
        exact hkey a ha
  | @delete db id _ ih =>
    have hsub := (deleteResult_results db id).2
    exact ⟨(hsub.map _).nodup ih.1, ih.2.sublist hsub⟩
  | students sts _ ih => exact ih

theorem find?_eraseP_of_disjoint {α : Type} (p q : α → Bool) (l : List α)
    (h : ∀ x, q x = true → p x = false) : (l.eraseP q).find? p = l.find? p := by
  induction l with
  | nil => rfl
  | cons a l ih =>
    by_cases hq : q a = true
    · rw [List.eraseP_cons_of_pos hq, List.find?_cons, h a hq]
    · rw [List.eraseP_cons_of_neg hq, List.find?_cons, List.find?_cons, ih]

theorem findById_mem {db : Store} {id : ObjectId} {r : Result}
    (h : Result.findById db id = some r) : r ∈ db.results ∧ r._id = id := by
  unfold Result.findById at h
  exact ⟨List.mem_of_find?_eq_some h, by simpa using List.find?_some h⟩

theorem findById_createResult {db : Store} {id : ObjectId} {r : Result} (now : Date)
    (body : CreateBody) (h : Result.findById db id = some r) :
    Result.findById (createResult db now body).1 id = some r := by
  rcases (createResult_results db now body).2 with h' | ⟨doc, h', -, -⟩
  · unfold Result.findById at h ⊢; rw [h', h]
  · unfold Result.findById at h ⊢; rw [h', List.find?_append, h]; rfl

theorem findById_deleteResult {db : Store} {id other : ObjectId} {r : Result}
    (hne : other ≠ id) (h : Result.findById db id = some r) :
    Result.findById (deleteResult db other).1 id = some r := by
  unfold deleteResult
  rcases hf : Result.findById db other with _ | r'
  · exact h
  · have hid := (findById_mem hf).2
    unfold Result.findById Result.deleteOne at *
    simp only
    rw [find?_eraseP_of_disjoint, h]
    intro x hx
    simp only [beq_iff_eq, beq_eq_false_iff_ne, ne_eq] at hx ⊢
    intro hx'
    exact hne (by rw [← hid, ← hx, hx'])

theorem later_findById {id : ObjectId} {db later : Store} {r : Result}
    (hl : Later id db later) (h : Result.findById db id = some r) :
    Result.findById later id = some r := by
  induction hl with
  | refl => exact h
  | students sts _ ih => exact ih
  | create now body _ ih => exact findById_createResult now body ih
  | delete other hne _ ih => exact findById_deleteResult hne ih

theorem findById_append_fresh (students : List Student) (rs : List Result) (doc : Result)
    (hid : doc._id = freshId rs) :
    Result.findById { students := students, results := rs ++ [doc] } doc._id = some doc := by
  unfold Result.findById
  simp only
  rw [List.find?_append]
  have : rs.find? (fun r => r._id == doc._id) = none := by
    rw [List.find?_eq_none]
    intro x hx hx'
    apply freshId_not_mem rs
    rw [← hid, ← (beq_iff_eq.1 hx')]
    exact List.mem_map_of_mem _ hx
  rw [this]
  simp

theorem find?_eraseP_self_eq_none (rs : List Result) (id : ObjectId)
    (h : (rs.map (fun r => r._id)).Nodup) :
    (rs.eraseP (fun r => r._id == id)).find? (fun r => r._id == id) = none := by
  induction rs with
  | nil => rfl
  | cons a rs ih =>
    rw [List.map_cons, List.nodup_cons] at h
    by_cases ha : a._id = id
    · rw [List.eraseP_cons_of_pos (by simpa using ha), List.find?_eq_none]
      intro x hx hx'
      apply h.1
      rw [ha, ← beq_iff_eq.1 hx']
      exact List.mem_map_of_mem _ hx
    · rw [List.eraseP_cons_of_neg (by simpa using ha), List.find?_cons_of_neg _ (by simpa using ha)]
      exact ih h.2

theorem matches_gradeNin (q : ResultQuery) (hq : q.gradeNin = none) (r : Result) :
    ({ q with gradeNin := some ["D", "F"] } : ResultQuery).matches r =
      (q.matches r && isPassed r) := by
  unfold ResultQuery.matches isPassed
  simp [hq]

theorem countDocuments_passed (db : Store) (q : ResultQuery) (hq : q.gradeNin = none) :
    Result.countDocuments db { q with gradeNin := some ["D", "F"] } =
      ((Result.find db q).filter isPassed).length := by
  unfold Result.countDocuments Result.find
  rw [List.filter_filter]
  congr 1
  apply List.filter_congr
  intro r _
  rw [matches_gradeNin q hq, Bool.and_comm]

theorem toFixed2_of_nonneg {x : ℚ} (hx : 0 ≤ x) :
    (∃ n : ℤ, toFixed2 x * 100 = n) ∧ x - 1 / 200 < toFixed2 x ∧ toFixed2 x ≤ x + 1 / 200 := by
  unfold toFixed2
  rw [if_neg (not_lt.2 hx)]
  have h1 := Int.floor_le (x * 100 + 1 / 2)
  have h2 := Int.lt_floor_add_one (x * 100 + 1 / 2)
  refine ⟨⟨⌊x * 100 + 1 / 2⌋, by field_simp⟩, ?_, ?_⟩
  · rw [lt_div_iff₀ (by norm_num)]; linarith
  · rw [div_le_iff₀ (by norm_num)]; linarith

theorem passPercentage_two_of_three : passPercentage 2 3 = some (6667 / 100) := by
  simp only [passPercentage, jsDiv, toFixed2]
  norm_num

theorem length_sortResults (path : String) (ascending : Bool) (docs : List Result) :
    (sortResults path ascending docs).length = docs.length :=
  List.length_insertionSort _ _

theorem skipLimit_page {α : Type} (docs : List α) (page limit : Nat) (h1 : 1 ≤ page)
    (h2 : 1 ≤ limit) :
    skipLimit docs (some (((page : Int) - 1) * limit)) (some (limit : Int)) =
      .ok ((docs.drop ((page - 1) * limit)).take limit) := by
  have hs : ((page : Int) - 1) * limit = (((page - 1) * limit : Nat) : Int) := by
    push_cast [Nat.cast_sub h1]; ring
  have hl : (limit : Int) ≠ 0 := by omega
  rw [hs]
  simp only [skipLimit]
  rw [if_neg (by omega), if_neg hl, Int.toNat_ofNat, Int.natAbs_ofNat]

theorem valueOf_cons_self {β : Type} (k : String) (b : β) (rest : List (String × β)) :
    valueOf ((k, b) :: rest) k = some b := by
  simp [valueOf]

theorem valueOf_cons_of_ne {β : Type} {k0 k : String} (h : k0 ≠ k) (b0 : β)
    (rest : List (String × β)) : valueOf ((k0, b0) :: rest) k = valueOf rest k := by
  unfold valueOf
  rw [List.find?_cons_of_neg _ (by simpa using h)]

theorem valueOf_upsert {β : Type} (k : String) (f : β → β) (new : β)
    (acc : List (String × β)) (k' : String) :
    valueOf (upsert k f new acc) k' =
      if k' = k then some (match valueOf acc k with | some b => f b | none => new)
      else valueOf acc k' := by
  induction acc with
  | nil =>
    by_cases h : k' = k
    · subst h; simp [upsert, valueOf]
    · have h' : k ≠ k' := fun e => h e.symm
      simp [upsert, valueOf, h, h']
  | cons kv rest ih =>
    obtain ⟨k0, b0⟩ := kv
    by_cases h0 : k0 = k
    · subst h0
      simp only [upsert, if_true]
      by_cases h : k' = k0
      · subst h; rw [valueOf_cons_self, valueOf_cons_self, if_pos rfl]
      · have h' : k0 ≠ k' := fun e => h e.symm
        rw [valueOf_cons_of_ne h', valueOf_cons_of_ne h', if_neg h]
    · simp only [upsert, h0, if_false]
      rw [valueOf_cons_of_ne h0]
      by_cases h1 : k0 = k'
      · subst h1
        have h' : ¬k0 = k := h0
        rw [valueOf_cons_self, valueOf_cons_self, if_neg h']
      · rw [valueOf_cons_of_ne h1, valueOf_cons_of_ne h1, ih]

theorem keys_upsert {β : Type} (k : String) (f : β → β) (new : β) (acc : List (String × β)) :
    (upsert k f new acc).map Prod.fst =
      if k ∈ acc.map Prod.fst then acc.map Prod.fst else acc.map Prod.fst ++ [k] := by
  induction acc with
  | nil => simp [upsert]
  | cons kv rest ih =>
    obtain ⟨k0, b0⟩ := kv
    by_cases h0 : k0 = k
    · subst h0; simp [upsert]
    · have h0' : k ≠ k0 := fun e => h0 e.symm
      simp only [upsert, h0, if_false, List.map_cons, ih, List.mem_cons, h0', false_or]
      split <;> simp

theorem nodup_keys_upsert {β : Type} (k : String) (f : β → β) (new : β)
    (acc : List (String × β)) (h : (acc.map Prod.fst).Nodup) :
    ((upsert k f new acc).map Prod.fst).Nodup := by
  rw [keys_upsert]
  split
  · exact h
  · rename_i hk
    rw [List.nodup_append]
    refine ⟨h, List.nodup_singleton _, ?_⟩
    intro x hx hx'
    rw [List.mem_singleton] at hx'
    exact hk (hx' ▸ hx)

theorem mem_iff_valueOf {β : Type} (acc : List (String × β)) (h : (acc.map Prod.fst).Nodup)
    (k : String) (b : β) : (k, b) ∈ acc ↔ valueOf acc k = some b := by
  induction acc with
  | nil => simp [valueOf]
  | cons kv rest ih =>
    obtain ⟨k0, b0⟩ := kv
    rw [List.map_cons, List.nodup_cons] at h
    by_cases h0 : k0 = k
    · subst h0
      have hnot : (k0, b) ∉ rest := fun hm => h.1 (List.mem_map.2 ⟨(k0, b), hm, rfl⟩)
      rw [valueOf_cons_self, List.mem_cons]
      constructor
      · rintro (e | e)
        · cases e; rfl
        · exact absurd e hnot
      · intro e; cases e; exact Or.inl rfl
    · rw [valueOf_cons_of_ne h0, ← ih h.2, List.mem_cons]
      constructor
      · rintro (e | e)
        · cases e; exact absurd rfl h0
        · exact e
      · exact Or.inr

theorem groupFold_append_singleton {β : Type} (key : Result → String) (init : β)
    (step : β → Result → β) (docs : List Result) (r : Result) :
    groupFold key init step (docs ++ [r]) =
      upsert (key r) (fun b => step b r) (step init r) (groupFold key init step docs) := by
  simp [groupFold, List.foldl_append]

theorem nodup_keys_groupFold {β : Type} (key : Result → String) (init : β)
    (step : β → Result → β) (docs : List Result) :
    ((groupFold key init step docs).map Prod.fst).Nodup := by
  induction docs using List.reverseRecOn with
  | nil => simp [groupFold]
  | append_singleton docs r ih =>
    rw [groupFold_append_singleton]
    exact nodup_keys_upsert _ _ _ _ ih

theorem valueOf_groupFold {β : Type} (key : Result → String) (init : β)
    (step : β → Result → β) (docs : List Result) (k : String) :
    valueOf (groupFold key init step docs) k =
      if docs.filter (fun r => key r == k) = [] then none
      else some ((docs.filter (fun r => key r == k)).foldl step init) := by
  induction docs using List.reverseRecOn with
  | nil => simp [groupFold, valueOf]
  | append_singleton docs r ih =>
    rw [groupFold_append_singleton, valueOf_upsert]
    by_cases hk : k = key r
    · subst hk
      rw [if_pos rfl, ih]
      have : (docs ++ [r]).filter (fun x => key x == key r) =
          docs.filter (fun x => key x == key r) ++ [r] := by
        simp [List.filter_append]
      rw [this]
      by_cases hnil : docs.filter (fun x => key x == key r) = []
      · simp [hnil]
      · simp [hnil, List.foldl_append]
    · rw [if_neg hk, ih]
      have hk' : (key r == k) = false := by
        simpa using fun e => hk e.symm
      have : (docs ++ [r]).filter (fun x => key x == k) = docs.filter (fun x => key x == k) := by
        simp [List.filter_append, hk']
      rw [this]

theorem sum_upsert_count (k : String) (acc : List (String × Nat)) :
    ((upsert k (fun n => n + 1) 1 acc).map Prod.snd).sum = (acc.map Prod.snd).sum + 1 := by
  induction acc with
  | nil => simp [upsert]
  | cons kv rest ih =>
    obtain ⟨k0, b0⟩ := kv
    by_cases h0 : k0 = k
    · simp [upsert, h0]; omega
    · simp [upsert, h0, ih]; omega

theorem sum_groupFold_count (key : Result → String) (docs : List Result) :
    ((groupFold key 0 (fun n _ => n + 1) docs).map Prod.snd).sum = docs.length := by
  induction docs using List.reverseRecOn with
  | nil => simp [groupFold]
  | append_singleton docs r ih =>
    rw [groupFold_append_singleton]
    have := sum_upsert_count (key r) (groupFold key 0 (fun n _ => n + 1) docs)
    simp only [Nat.zero_add] at this ⊢
    rw [this, ih]
    simp

theorem foldl_count (docs : List Result) (n : Nat) :
    docs.foldl (fun n _ => n + 1) n = n + docs.length := by
  induction docs generalizing n with
  | nil => rfl
  | cons r docs ih => simp [ih]; omega

instance gradeCount_isTotal : IsTotal GradeCount (fun a b => a._id ≤ b._id) :=
  ⟨fun a b => le_total a._id b._id⟩

instance gradeCount_isTrans : IsTrans GradeCount (fun a b => a._id ≤ b._id) :=
  ⟨fun _ _ _ h1 h2 => le_trans h1 h2⟩

/-- The grade distribution relative to the documents that pass its `$match` stage: one
entry per grade that occurs, in strictly ascending order of the label, each with the
number of documents of that grade, and the counts add up to the number of documents. -/
theorem gradeDistribution_spec (db : Store) (q : ResultQuery) :
    ((gradeDistribution db q).map (fun e => e._id)).Nodup ∧
    (∀ g, g ∈ (gradeDistribution db q).map (fun e => e._id) ↔
      ∃ r ∈ db.results.filter q.matchesRaw, r.grade = g) ∧
    (gradeDistribution db q).Pairwise (fun a b => a._id < b._id) ∧
    (∀ e ∈ gradeDistribution db q,
      e.count = ((db.results.filter q.matchesRaw).filter (fun r => r.grade == e._id)).length) ∧
    ((gradeDistribution db q).map (fun e => e.count)).sum =
      (db.results.filter q.matchesRaw).length := by
  set docs := db.results.filter q.matchesRaw with hdocs
  set G := groupFold (fun r => r.grade) 0 (fun n _ => n + 1) docs with hG
  have hperm : (gradeDistribution db q).Perm
      (G.map (fun kv => ({ _id := kv.1, count := kv.2 } : GradeCount))) :=
    List.perm_insertionSort _ _
  have hsorted : (gradeDistribution db q).Sorted (fun a b => a._id ≤ b._id) :=
    List.sorted_insertionSort _ _
  have hkeys : ((gradeDistribution db q).map (fun e => e._id)).Perm (G.map Prod.fst) := by
    have := hperm.map (fun e : GradeCount => e._id)
    rwa [List.map_map] at this
  have hnodupG : (G.map Prod.fst).Nodup := nodup_keys_groupFold _ _ _ _
  have hnodup : ((gradeDistribution db q).map (fun e => e._id)).Nodup :=
    hkeys.nodup_iff.2 hnodupG
  have hval : ∀ k n, (k, n) ∈ G ↔
      docs.filter (fun r => r.grade == k) ≠ [] ∧
        n = (docs.filter (fun r => r.grade == k)).length := by
    intro k n
    rw [mem_iff_valueOf G hnodupG, hG, valueOf_groupFold]
    by_cases hnil : docs.filter (fun r => r.grade == k) = []
    · simp [hnil]
    · simp [hnil, foldl_count, eq_comm]
  refine ⟨hnodup, ?_, ?_, ?_, ?_⟩
  · intro g
    rw [hkeys.mem_iff, List.mem_map]
    constructor
    · rintro ⟨⟨k, n⟩, hmem, rfl⟩
      have h := ((hval k n).1 hmem).1
      obtain ⟨r, hr⟩ := List.exists_mem_of_ne_nil _ h
      rw [List.mem_filter] at hr
      exact ⟨r, hr.1, by simpa using hr.2⟩
    · rintro ⟨r, hr, rfl⟩
      refine ⟨(r.grade, (docs.filter (fun x => x.grade == r.grade)).length), ?_, rfl⟩
      rw [hval]
      refine ⟨?_, rfl⟩
      intro hnil
      have : r ∈ docs.filter (fun x => x.grade == r.grade) :=
        List.mem_filter.2 ⟨hr, by simp⟩
      rw [hnil] at this
      cases this
  · have h1 : ((gradeDistribution db q).map (fun e => e._id)).Sorted (· ≤ ·) := by
      rw [List.Sorted, List.pairwise_map]; exact hsorted
    have h2 := h1.lt_of_le hnodup
    rw [List.Sorted, List.pairwise_map] at h2
    exact h2
  · intro e he
    have := hperm.mem_iff.1 he
    rw [List.mem_map] at this
    obtain ⟨⟨k, n⟩, hmem, rfl⟩ := this
    exact ((hval k n).1 hmem).2
  · have := (hperm.map (fun e : GradeCount => e.count)).sum_eq
    rw [this, List.map_map]
    exact sum_groupFold_count _ _

theorem statisticsQuery_matchesRaw (className exam : Option String)
    (h : ∀ e, exam = some e → jsTrim e = e) (r : Result) :
    (statisticsQuery className exam).matchesRaw r = (statisticsQuery className exam).matches r := by
  unfold statisticsQuery ResultQuery.matchesRaw ResultQuery.matches
  rcases exam with _ | e
  · simp [truthy]
  · by_cases he : truthy (some e) = true
    · simp [he, h e rfl]
    · simp [he]

/-- For a filter whose `exam` value carries no surrounding white space, the grade
distribution of `getResultsStatistics` has one entry per grade among the matching
results, in ascending order of the label, each with the number of matching results of
that grade, and the counts add up to `totalResults`. -/
theorem getResultsStatistics_gradeDistribution (db : Store) (className exam : Option String)
    (htrim : ∀ e, exam = some e → jsTrim e = e) :
    ∃ stats, getResultsStatistics db className exam = .success 200 stats ∧
      stats.totalResults = (Result.find db (statisticsQuery className exam)).length ∧
      (stats.gradeDistribution.map (fun e => e._id)).Nodup ∧
      (∀ g, g ∈ stats.gradeDistribution.map (fun e => e._id) ↔
        ∃ r ∈ Result.find db (statisticsQuery className exam), r.grade = g) ∧
      stats.gradeDistribution.Pairwise (fun a b => a._id < b._id) ∧
      (∀ e ∈ stats.gradeDistribution, e.count =
        ((Result.find db (statisticsQuery className exam)).filter
          (fun r => r.grade == e._id)).length) ∧
      (stats.gradeDistribution.map (fun e => e.count)).sum = stats.totalResults := by
  have hraw : db.results.filter (statisticsQuery className exam).matchesRaw =
      Result.find db (statisticsQuery className exam) := by
    unfold Result.find
    exact List.filter_congr (fun r _ => statisticsQuery_matchesRaw className exam htrim r)
  have h := gradeDistribution_spec db (statisticsQuery className exam)
  rw [hraw] at h
  exact ⟨_, rfl, rfl, h.1, h.2.1, h.2.2.1, h.2.2.2.1, h.2.2.2.2⟩

theorem bsonLe_total (a b : BsonValue) : a.le b = true ∨ b.le a = true := by
  cases a <;> cases b <;> simp only [BsonValue.le, BsonValue.rank, decide_eq_true_eq] <;>
    exact le_total _ _

theorem bsonLe_trans {a b c : BsonValue} (h1 : a.le b = true) (h2 : b.le c = true) :
    a.le c = true := by
  cases a <;> cases b <;> cases c <;>
    simp only [BsonValue.le, BsonValue.rank, decide_eq_true_eq] at h1 h2 ⊢ <;>
    first
      | exact le_trans h1 h2
      | omega

instance sortRel_isTotal (path : String) (ascending : Bool) :
    IsTotal Result (sortRel path ascending) :=
  ⟨fun a b => by
    unfold sortRel
    cases ascending
    · simpa using bsonLe_total (b.field path) (a.field path)
    · simpa using bsonLe_total (a.field path) (b.field path)⟩

instance sortRel_isTrans (path : String) (ascending : Bool) :
    IsTrans Result (sortRel path ascending) :=
  ⟨fun a b c h1 h2 => by
    unfold sortRel at *
    cases ascending
    · simp only [Bool.false_eq_true, if_false] at h1 h2 ⊢
      exact bsonLe_trans h2 h1
    · simp only [if_true] at h1 h2 ⊢
      exact bsonLe_trans h1 h2⟩

theorem sorted_sortResults (path : String) (ascending : Bool) (docs : List Result) :
    (sortResults path ascending docs).Sorted (sortRel path ascending) :=
  List.sorted_insertionSort _ _

theorem perm_sortResults (path : String) (ascending : Bool) (docs : List Result) :
    (sortResults path ascending docs).Perm docs :=
  List.perm_insertionSort _ _

theorem sortRel_studentName (a b : Result) :
    sortRel "studentName" true a b ↔ a.studentName ≤ b.studentName := by
  simp [sortRel, Result.field, BsonValue.le]

theorem classFilter_matches (className : String) (exam : Option String) (r : Result) :
    (classFilter className exam).matches r = inClass className exam r := by
  unfold classFilter ResultQuery.matches inClass
  rcases exam with _ | e
  · simp [truthy]
  · by_cases he : e = ""
    · subst he; simp [truthy, truthyStr]
    · have he' : (e == "") = false := by simpa using he
      simp [truthy, truthyStr, he, he']

theorem isPassed_iff (r : Result) : isPassed r = true ↔ r.grade ≠ "D" ∧ r.grade ≠ "F" := by
  simp [isPassed]

theorem length_filter_add_length_filter_not {α : Type} (p : α → Bool) (l : List α) :
    (l.filter p).length + (l.filter (fun a => !p a)).length = l.length := by
  induction l with
  | nil => rfl
  | cons a l ih =>
    by_cases h : p a = true
    · simp [h]; omega
    · simp [h]; omega

theorem optionFilter_eq (v : Option String) (f : String → Bool) :
    (match (if truthy v = true then v else none) with
      | none => true
      | some c => f c) =
    (match v with
      | some c => c == "" || f c
      | none => true) := by
  rcases v with _ | c
  · simp [truthy]
  · by_cases hc : c = ""
    · subst hc; simp [truthy, truthyStr]
    · have hc' : (c == "") = false := by simpa using hc
      simp [truthy, truthyStr, hc, hc']

theorem listFilter_matches (q : ListQuery) (r : Result) :
    (listFilter q).matches r = satisfiesList q r := by
  unfold listFilter ResultQuery.matches satisfiesList
  simp only [optionFilter_eq, Bool.and_true]
  cases q.studentId <;> rfl

theorem mem_of_skipLimit {α : Type} (docs : List α) (skip limit : Option Int) (out : List α)
    (h : skipLimit docs skip limit = .ok out) : ∀ x ∈ out, x ∈ docs := by
  intro x hx
  unfold skipLimit at h
  split at h
  · split at h
    · cases h
    · split at h
      · cases h; exact List.mem_of_mem_drop hx
      · cases h; exact List.mem_of_mem_drop (List.mem_of_mem_take hx)
  · cases h
  · cases h

theorem eraseP_eq_filter_of_nodup (rs : List Result) (id : ObjectId)
    (h : (rs.map (fun r => r._id)).Nodup) :
    rs.eraseP (fun r => r._id == id) = rs.filter (fun r => r._id != id) := by
  induction rs with
  | nil => rfl
  | cons a rs ih =>
    rw [List.map_cons, List.nodup_cons] at h
    by_cases ha : a._id = id
    · rw [List.eraseP_cons_of_pos (by simpa using ha), List.filter_cons_of_neg (by simpa using ha)]
      symm
      rw [List.filter_eq_self]
      intro x hx
      have : x._id ≠ id := by
        intro hx'
        apply h.1
        rw [ha, ← hx']
        exact List.mem_map_of_mem _ hx
      simpa using this
    · rw [List.eraseP_cons_of_neg (by simpa using ha), List.filter_cons_of_pos (by simpa using ha),
        ih h.2]

theorem dispatchIn_mem (routes : List Route) (method : Method) (segs : List String)
    (handler : Handler) (params : List (String × String))
    (h : dispatchIn routes method segs = some (handler, params)) :
    ∃ route ∈ routes, route.method = method ∧ route.handler = handler ∧
      matchPath route.path segs = some params := by
  induction routes with
  | nil => simp [dispatchIn] at h
  | cons route rest ih =>
    unfold dispatchIn at h
    split at h
    · rename_i hm
      split at h
      · rename_i ps hps
        simp only [Option.some.injEq, Prod.mk.injEq] at h
        exact ⟨route, List.mem_cons_self _ _, hm, h.1, by rw [hps, h.2]⟩
      · obtain ⟨r, hr, h'⟩ := ih h
        exact ⟨r, List.mem_cons_of_mem _ hr, h'⟩
    · obtain ⟨r, hr, h'⟩ := ih h
      exact ⟨r, List.mem_cons_of_mem _ hr, h'⟩

theorem dispatchIn_of_match_in_front (front back : List Route) (method : Method)
    (segs : List String)
    (h : ∃ route ∈ front, route.method = method ∧ (matchPath route.path segs).isSome) :
    ∃ route ∈ front, ∃ params,
      dispatchIn (front ++ back) method segs = some (route.handler, params) := by
  induction front with
  | nil => obtain ⟨r, hr, -⟩ := h; cases hr
  | cons route rest ih =>
    by_cases hm : route.method = method
    · rcases hp : matchPath route.path segs with _ | ps
      · have hrest : ∃ r ∈ rest, r.method = method ∧ (matchPath r.path segs).isSome := by
          obtain ⟨r, hr, hrm, hrs⟩ := h
          rcases List.mem_cons.1 hr with rfl | hr'
          · rw [hp] at hrs; cases hrs
          · exact ⟨r, hr', hrm, hrs⟩
        obtain ⟨r, hr, ps, hd⟩ := ih hrest
        refine ⟨r, List.mem_cons_of_mem _ hr, ps, ?_⟩
        simp only [List.cons_append, dispatchIn, hm, if_true, hp]
        exact hd
      · refine ⟨route, List.mem_cons_self _ _, ps, ?_⟩
        simp only [List.cons_append, dispatchIn, hm, if_true, hp]
    · have hrest : ∃ r ∈ rest, r.method = method ∧ (matchPath r.path segs).isSome := by
        obtain ⟨r, hr, hrm, hrs⟩ := h
        rcases List.mem_cons.1 hr with rfl | hr'
        · exact absurd hrm hm
        · exact ⟨r, hr', hrm, hrs⟩
      obtain ⟨r, hr, ps, hd⟩ := ih hrest
      refine ⟨r, List.mem_cons_of_mem _ hr, ps, ?_⟩
      simp only [List.cons_append, dispatchIn, hm, if_false]
      exact hd

theorem find_all (db : Store) : Result.find db {} = db.results := by
  unfold Result.find
  rw [List.filter_eq_self]
  intro r _
  rfl

theorem sortRel_createdAt_desc (a b : Result) :
    sortRel "createdAt" false a b ↔ b.createdAt ≤ a.createdAt := by
  simp [sortRel, Result.field, BsonValue.le]

theorem skipLimit_take {α : Type} (docs : List α) (n : Nat) (hn : 0 < n) :
    skipLimit docs (some 0) (some (n : Int)) = .ok (docs.take n) := by
  have hl : (n : Int) ≠ 0 := by omega
  simp only [skipLimit]
  rw [if_neg (by omega), if_neg hl]
  simp

theorem sorted_perm_unique {α : Type} (r : α → α → Prop) :
    ∀ (l₁ l₂ : List α), l₁.Perm l₂ → l₁.Sorted r → l₂.Sorted r →
      (∀ a ∈ l₁, ∀ b ∈ l₁, r a b → r b a → a = b) → l₁ = l₂ := by
  intro l₁
  induction l₁ with
  | nil =>
    intro l₂ hp _ _ _
    exact hp.nil_eq
  | cons a l₁ ih =>
    intro l₂ hp h1 h2 hanti
    rcases l₂ with _ | ⟨b, l₂⟩
    · exact absurd hp.symm.nil_eq (by simp)
    · have ha : a ∈ b :: l₂ := hp.subset (List.mem_cons_self _ _)
      have hb : b ∈ a :: l₁ := hp.symm.subset (List.mem_cons_self _ _)
      have hab : a = b := by
        rcases List.mem_cons.1 ha with h | h
        · exact h
        · rcases List.mem_cons.1 hb with h' | h'
          · exact h'.symm
          · have rba : r b a := List.rel_of_sorted_cons h2 a h
            have rab : r a b := List.rel_of_sorted_cons h1 b h'
            exact hanti a (List.mem_cons_self _ _) b hb rab rba
      subst hab
      have hp' : l₁.Perm l₂ := (List.perm_cons a).1 hp
      rw [ih l₂ hp' h1.of_cons h2.of_cons
        (fun x hx y hy => hanti x (List.mem_cons_of_mem _ hx) y (List.mem_cons_of_mem _ hy))]

theorem flatMap_chunks {α : Type} (docs : List α) (size : Nat) (count : Nat) :
    (List.range count).flatMap (fun i => (docs.drop (i * size)).take size) =
      docs.take (count * size) := by
  induction count with
  | zero => simp
  | succ n ih =>
    rw [List.range_succ, List.flatMap_append, ih, List.flatMap_singleton, Nat.succ_mul,
      List.take_add]

theorem le_mul_of_totalPages (total limit pages : Nat) (h1 : 1 ≤ limit)
    (h : totalPages total (some (limit : Int)) = some (pages : Int)) : total ≤ pages * limit := by
  have hl : ((limit : Int) : ℚ) ≠ 0 := by
    have : (limit : ℚ) ≠ 0 := by exact_mod_cast (by omega : limit ≠ 0)
    simpa using this
  unfold totalPages jsDiv at h
  simp only at h
  rw [if_neg hl] at h
  simp only [Option.map_some', Option.some.injEq] at h
  have hle := Int.le_ceil ((total : ℚ) / ((limit : Int) : ℚ))
  rw [h] at hle
  have hpos : (0 : ℚ) < ((limit : Int) : ℚ) := by
    have : (0 : ℚ) < (limit : ℚ) := by exact_mod_cast (by omega : 0 < limit)
    simpa using this
  rw [div_le_iff₀ hpos] at hle
  have : (total : ℚ) ≤ ((pages * limit : Nat) : ℚ) := by
    push_cast
    simpa using hle
  exact_mod_cast this

/-! ## Claims -/

/-- C1 (amended): when a create without a subject succeeds, an immediately following
create for the same student and exam without a subject changes nothing and is answered
with status 400 and `success: false`, with the duplicate error whenever its grade is
supplied; and from a store with no result for the student and the (trimmed) exam, two
schema-valid creates whose subjects are non-empty and differ after trimming both
succeed with status 201 and insert one result each. -/
theorem createResult_duplicate_detection :
    (∀ (db : Store) (now now' : Date) (first second : CreateBody) (created : Result),
      (createResult db now first).2 = .success 201 created →
      truthy first.subject = false → truthy second.subject = false →
      second.studentId = first.studentId → second.exam = first.exam →
      createResult (createResult db now first).1 now' second =
        ((createResult db now first).1,
          .failure 400 (if truthy second.grade then msgDuplicate else msgRequired))) ∧
    (∀ (db : Store) (now now' : Date) (first second : CreateBody) (student : Student)
      (studentId : ObjectId) (exam grade₁ grade₂ subject₁ subject₂ : String),
      Student.findById db studentId = some student →
      (∀ r ∈ db.results, ¬(r.studentId = studentId ∧ r.exam = jsTrim exam)) →
      first.studentId = some studentId → first.exam = some exam →
      first.grade = some grade₁ → first.subject = some subject₁ →
      second.studentId = some studentId → second.exam = some exam →
      second.grade = some grade₂ → second.subject = some subject₂ →
      SchemaValid student exam grade₁ first.marks →
      SchemaValid student exam grade₂ second.marks →
      subject₁ ≠ "" → subject₂ ≠ "" → jsTrim subject₁ ≠ jsTrim subject₂ →
      (createResult db now first).2.status = some 201 ∧
      (createResult (createResult db now first).1 now' second).2.status = some 201 ∧
      (createResult (createResult db now first).1 now' second).1.results.length =
        db.results.length + 2) := by
  constructor
  · intro db now now' first second created h1 hsub1 hsub2 hsid hexam
    rcases createResult_cases db now first with ⟨h, -⟩ | ⟨sId, exam, grade, hs, he, hg, hne, hng, h⟩
    · rw [h] at h1; simp at h1
    rcases h with ⟨h, -⟩ | ⟨student, hst, h⟩
    · rw [h] at h1; simp at h1
    rcases h with ⟨h, -⟩ | ⟨hdup, h⟩
    · rw [h] at h1; simp at h1
    rcases h with ⟨-, h⟩ | ⟨hv, h⟩
    · rw [h] at h1; simp at h1
    rw [h]
    simp only
    have hst' : Student.findById { db with results := db.results ++ [newDocument (freshId db.results) now
        (applySetters (createDraft student sId exam grade first now))] } sId = some student := by
      rw [← hst]; exact findById_students_eq rfl sId
    rcases hg2 : second.grade with _ | grade₂
    · simp [createResult, hg2, truthy]
    by_cases hgne : grade₂ = ""
    · subst hgne
      simp [createResult, hg2, truthy, truthyStr, hsid, hs, hexam, he]
    · have : truthy (some grade₂) = true := by simp [truthy, truthyStr, hgne]
      rw [this, if_pos rfl]
      apply createResult_duplicate (hsid.trans hs) (hexam.trans he) hg2 hne hgne hst'
      rw [Result.findOne, List.find?_isSome]
      refine ⟨_, List.mem_append_right _ (List.mem_singleton_self _), ?_⟩
      rw [duplicateQuery_matches_iff]
      refine ⟨rfl, rfl, fun ht => ?_⟩
      rw [hsub2] at ht; simp at ht
  · intro db now now' first second student sId exam g₁ g₂ s₁ s₂ hst hnone hs1 he1 hg1 hsub1
      hs2 he2 hg2 hsub2 hv1 hv2 hne1 hne2 hdiff
    have hexam : exam ≠ "" := ne_empty_of_jsTrim_ne hv1.2.2.1
    have hq1 : Result.findOne db (duplicateQuery sId exam first.subject) = none := by
      rw [Result.findOne, List.find?_eq_none]
      intro r hr hm
      rw [duplicateQuery_matches_iff] at hm
      exact hnone r hr ⟨hm.1, hm.2.1⟩
    have h1 := createResult_ok now hs1 he1 hg1 hexam (ne_empty_of_mem_gradeEnum hv1.2.2.2.1) hst hq1
      ((validationErrors_createDraft student sId exam g₁ first now).2 hv1)
    rw [h1]
    have hst' : Student.findById { db with results := db.results ++ [newDocument (freshId db.results) now
        (applySetters (createDraft student sId exam g₁ first now))] } sId = some student := by
      rw [← hst]; exact findById_students_eq rfl sId
    have hq2 : Result.findOne { db with results := db.results ++ [newDocument (freshId db.results) now
        (applySetters (createDraft student sId exam g₁ first now))] }
        (duplicateQuery sId exam second.subject) = none := by
      rw [Result.findOne, List.find?_eq_none]
      intro r hr hm
      simp only [List.mem_append, List.mem_singleton] at hr
      rcases hr with hr | rfl
      · rw [duplicateQuery_matches_iff] at hm
        exact hnone r hr ⟨hm.1, hm.2.1⟩
      · rw [duplicateQuery_matches_iff] at hm
        have h3 := hm.2.2 (by simp [hsub2, truthy, truthyStr, hne2])
        simp [newDocument, applySetters, createDraft, hsub1, hsub2] at h3
        exact hdiff h3
    have h2 := createResult_ok now' hs2 he2 hg2 hexam
      (ne_empty_of_mem_gradeEnum hv2.2.2.2.1) hst' hq2
      ((validationErrors_createDraft student sId exam g₂ second now').2 hv2)
    rw [h2]
    simp [Reply.status]

/-- Witness for C1: both halves at a store with one student and no result. -/
theorem createResult_duplicate_detection_witness :
    createResult (createResult exStore 10 exBody).1 20 { exBody with grade := some "B" } =
        ((createResult exStore 10 exBody).1, .failure 400 msgDuplicate) ∧
      (createResult exStore 10 { exBody with subject := some "Math" }).2.status = some 201 ∧
      (createResult (createResult exStore 10 { exBody with subject := some "Math" }).1 20
        { exBody with subject := some "Arabic" }).2.status = some 201 ∧
      (createResult (createResult exStore 10 { exBody with subject := some "Math" }).1 20
        { exBody with subject := some "Arabic" }).1.results.length = exStore.results.length + 2 :=
  ⟨createResult_duplicate_detection.1 exStore 10 20 exBody { exBody with grade := some "B" }
      (newDocument 1 10 (applySetters (createDraft exStudent 1 "Final" "A" exBody 10)))
      (by decide) (by decide) (by decide) rfl rfl,
   createResult_duplicate_detection.2 exStore 10 20 { exBody with subject := some "Math" }
      { exBody with subject := some "Arabic" } exStudent 1 "Final" "A" "A" "Math" "Arabic"
      (by decide) (by intro r hr; cases hr) rfl rfl rfl rfl rfl rfl rfl rfl
      ⟨by decide, by decide, by decide, by decide, by intro m h; cases h⟩
      ⟨by decide, by decide, by decide, by decide, by intro m h; cases h⟩
      (by decide) (by decide) (by decide)⟩

/-- C1 as stated fails: the subjects `"Math "` and `"Math"` are different and
non-empty, the store holds no result, the first create succeeds, and the second is
refused as a duplicate because `subject` is trimmed before it is stored and compared. -/
theorem createResult_trimmed_subjects_conflict :
    ("Math " : String) ≠ "Math" ∧ truthy (some "Math ") = true ∧ truthy (some "Math") = true ∧
      Student.findById exStore 1 = some exStudent ∧ exStore.results = [] ∧
      (createResult exStore 10 { exBody with subject := some "Math " }).2.status = some 201 ∧
      (createResult (createResult exStore 10 { exBody with subject := some "Math " }).1 20
        { exBody with subject := some "Math" }).2 = .failure 400 msgDuplicate := by
  decide

/-- C2: in every store reached from one without results by `createResult` and
`deleteResult` calls run one after the other, two distinct results never agree on
`studentId`, `exam` and a present `subject`, two distinct results without a `subject`
never agree on `studentId` and `exam`, and distinct results have distinct identifiers. -/
theorem reachable_unique_key (db : Store) (h : Reachable db) (i j : Fin db.results.length)
    (hij : i ≠ j) :
    (db.results.get i)._id ≠ (db.results.get j)._id ∧
    ((db.results.get i).studentId = (db.results.get j).studentId →
      (db.results.get i).exam = (db.results.get j).exam →
      (∀ s, (db.results.get i).subject = some s → (db.results.get j).subject ≠ some s) ∧
      ((db.results.get i).subject = none → (db.results.get j).subject ≠ none)) := by
  obtain ⟨hnodup, hpair⟩ := reachable_invariant db h
  constructor
  · intro heq
    have := (List.Nodup.get_inj_iff hnodup (i := ⟨i.1, by simp⟩) (j := ⟨j.1, by simp⟩)).1
      (by simpa using heq)
    exact hij (Fin.ext (by simpa using this))
  · intro hs he
    have hsym : Symmetric (fun a b : Result => ¬SameKey a b) := by
      intro a b hab hba
      exact hab ⟨hba.1.symm, hba.2.1.symm, hba.2.2.symm⟩
    have hne : db.results.get i ≠ db.results.get j := by
      intro heq
      have hn : db.results.Nodup := List.Nodup.of_map _ hnodup
      exact hij ((List.Nodup.get_inj_iff hn).1 heq)
    have hkey := hpair.forall hsym (List.get_mem _ _ _) (List.get_mem _ _ _) hne
    constructor
    · intro s h1 h2
      exact hkey ⟨hs, he, h1.trans h2.symm⟩
    · intro h1 h2
      exact hkey ⟨hs, he, h1.trans h2.symm⟩

/-- Witness for C2: the store after two creates for one student and exam with the
subjects `"Math"` and `"Arabic"`. -/
theorem reachable_unique_key_witness :
    (exTwoSubjects.results.get ⟨0, by decide⟩)._id ≠
        (exTwoSubjects.results.get ⟨1, by decide⟩)._id ∧
    ((exTwoSubjects.results.get ⟨0, by decide⟩).studentId =
        (exTwoSubjects.results.get ⟨1, by decide⟩).studentId →
      (exTwoSubjects.results.get ⟨0, by decide⟩).exam =
        (exTwoSubjects.results.get ⟨1, by decide⟩).exam →
      (∀ s, (exTwoSubjects.results.get ⟨0, by decide⟩).subject = some s →
        (exTwoSubjects.results.get ⟨1, by decide⟩).subject ≠ some s) ∧
      ((exTwoSubjects.results.get ⟨0, by decide⟩).subject = none →
        (exTwoSubjects.results.get ⟨1, by decide⟩).subject ≠ none)) :=
  reachable_unique_key exTwoSubjects
    (Reachable.create 20 { exBody with subject := some "Arabic" }
      (Reachable.create 10 { exBody with subject := some "Math" } (Reachable.init [exStudent])))
    ⟨0, by decide⟩ ⟨1, by decide⟩ (by decide)

/-- C3 (amended): after a successful create for student `s`, a later `getResult` on the
created identifier returns the created record, whose `studentName` is the `fullName`
that `s` had at creation time with surrounding white space trimmed (so the `fullName`
itself when it carries none) and whose `className` is that of `s` at creation time;
this holds after any later rewrite of the student collection, creation of results and
deletion of other results. -/
theorem createResult_snapshot (db : Store) (now : Date) (body : CreateBody)
    (created : Result) (studentId : ObjectId) (student : Student)
    (hcreate : (createResult db now body).2 = .success 201 created)
    (hid : body.studentId = some studentId)
    (hstudent : Student.findById db studentId = some student)
    (later : Store) (hlater : Later created._id (createResult db now body).1 later) :
    ∃ data, getResult later created._id = .success 200 data ∧ data.doc = created ∧
      data.doc.studentName = jsTrim student.fullName ∧
      data.doc.className = student.className ∧
      (jsTrim student.fullName = student.fullName → data.doc.studentName = student.fullName) := by
  rcases createResult_cases db now body with ⟨h, -⟩ | ⟨sId, exam, grade, hs, he, hg, hne, hng, h⟩
  · rw [h] at hcreate; simp at hcreate
  rcases h with ⟨h, -⟩ | ⟨student', hst, h⟩
  · rw [h] at hcreate; simp at hcreate
  rcases h with ⟨h, -⟩ | ⟨hdup, h⟩
  · rw [h] at hcreate; simp at hcreate
  rcases h with ⟨-, h⟩ | ⟨hv, h⟩
  · rw [h] at hcreate; simp at hcreate
  rw [h] at hcreate hlater
  simp only [Reply.success.injEq, true_and] at hcreate
  rw [hs] at hid
  cases hid
  rw [hstudent] at hst
  cases hst
  have hfind : Result.findById { db with results := db.results ++ [created] } created._id =
      some created := findById_append_fresh _ _ _ (by rw [← hcreate]; rfl)
  rw [hcreate] at hlater
  have hfind' := later_findById hlater hfind
  refine ⟨populate later
    [.fullName, .className, .dateOfBirth, .phone, .fatherName, .motherName] created,
    by simp [getResult, hfind'], rfl, ?_, ?_, ?_⟩
  · simp [populate, ← hcreate, newDocument, applySetters, createDraft]
  · simp [populate, ← hcreate, newDocument, applySetters, createDraft]
  · intro ht
    simp [populate, ← hcreate, newDocument, applySetters, createDraft, ht]

/-- Witness for C3: the student is renamed after the result was created. -/
theorem createResult_snapshot_witness :
    ∃ data, getResult { (createResult exStore 10 exBody).1 with students := [exRenamedStudent] }
        exCreated._id = .success 200 data ∧ data.doc = exCreated ∧
      data.doc.studentName = jsTrim exStudent.fullName ∧
      data.doc.className = exStudent.className ∧
      (jsTrim exStudent.fullName = exStudent.fullName →
        data.doc.studentName = exStudent.fullName) :=
  createResult_snapshot exStore 10 exBody exCreated 1 exStudent (by decide) rfl (by decide)
    { (createResult exStore 10 exBody).1 with students := [exRenamedStudent] }
    (Later.students [exRenamedStudent] (Later.refl _))

/-- C3 as stated fails: for a student whose `fullName` is `" Abdullah "` the create
succeeds and the record read back by `getResult` has `studentName = "Abdullah"`, which
is not the student's `fullName`: the `studentName` path is trimmed. -/
theorem createResult_snapshot_trims_name :
    Student.findById { students := [exUntrimmedStudent], results := [] } 1 =
        some exUntrimmedStudent ∧
      exUntrimmedStudent.fullName = " Abdullah " ∧
      (createResult { students := [exUntrimmedStudent], results := [] } 10 exBody).2.status =
        some 201 ∧
      (getResult (createResult { students := [exUntrimmedStudent], results := [] } 10 exBody).1
        1).data?.map (fun data => data.doc.studentName) = some "Abdullah" := by
  decide

/-- C4: with numbers read as exact rationals, `passPercentage` is `0` when
`totalResults` is `0`, and otherwise a multiple `p` of `1/100` nearest to
`passed / totalResults * 100` (within `1/200` of it); three matching results of which
two have a grade outside `D`, `F` give `66.67`; the quotient is only formed with a
non-zero `totalResults`, so the percentage is never a non-finite number. -/
theorem getResultsStatistics_passPercentage (db : Store) (className exam : Option String) :
    ∃ stats, getResultsStatistics db className exam = .success 200 stats ∧
      stats.totalResults = (Result.find db (statisticsQuery className exam)).length ∧
      stats.passed =
        ((Result.find db (statisticsQuery className exam)).filter isPassed).length ∧
      stats.passPercentage = passPercentage stats.passed stats.totalResults ∧
      stats.passPercentage ≠ none ∧
      (stats.totalResults = 0 → stats.passPercentage = some 0) ∧
      (0 < stats.totalResults →
        jsDiv stats.passed stats.totalResults =
          some ((stats.passed : ℚ) / (stats.totalResults : ℚ)) ∧
        ∃ p : ℚ, stats.passPercentage = some p ∧ (∃ n : ℤ, p * 100 = n) ∧
          (stats.passed : ℚ) / (stats.totalResults : ℚ) * 100 - 1 / 200 ≤ p ∧
          p ≤ (stats.passed : ℚ) / (stats.totalResults : ℚ) * 100 + 1 / 200) ∧
      (stats.totalResults = 3 → stats.passed = 2 → stats.passPercentage = some (6667 / 100)) := by
  have hpos : ∀ (a b : Nat), 0 < b →
      jsDiv a b = some ((a : ℚ) / (b : ℚ)) ∧
      passPercentage a b = some (toFixed2 ((a : ℚ) / (b : ℚ) * 100)) := by
    intro a b hb
    have hb' : (b : ℚ) ≠ 0 := by exact_mod_cast hb.ne'
    simp [passPercentage, jsDiv, hb, hb']
  refine ⟨_, rfl, rfl, countDocuments_passed db _ (by simp [statisticsQuery]), rfl, ?_, ?_, ?_, ?_⟩
  · show passPercentage _ _ ≠ none
    generalize Result.countDocuments db _ = a
    generalize Result.countDocuments db _ = b
    rcases Nat.eq_zero_or_pos b with rfl | hb
    · simp [passPercentage]
    · rw [(hpos a b hb).2]; simp
  · intro h0
    show passPercentage _ _ = some 0
    simp only at h0
    rw [h0]; simp [passPercentage]
  · intro hb
    simp only at hb ⊢
    have hround := toFixed2_of_nonneg
      (show (0 : ℚ) ≤ (Result.countDocuments db
        { statisticsQuery className exam with gradeNin := some ["D", "F"] } : ℚ) /
        (Result.countDocuments db (statisticsQuery className exam) : ℚ) * 100 by positivity)
    exact ⟨(hpos _ _ hb).1, _, (hpos _ _ hb).2, hround.1, le_of_lt hround.2.1, hround.2.2⟩
  · intro h3 h2
    simp only at h3 h2 ⊢
    rw [h3, h2]
    exact passPercentage_two_of_three

/-- Witness for C4: three results with the grades `A`, `B` and `F`. -/
theorem getResultsStatistics_passPercentage_witness :
    ∃ stats, getResultsStatistics exThreeResults none none = .success 200 stats ∧
      stats.totalResults = 3 ∧ stats.passed = 2 ∧ stats.passPercentage = some (6667 / 100) := by
  obtain ⟨stats, h, ht, hp, -, -, -, -, h3⟩ :=
    getResultsStatistics_passPercentage exThreeResults none none
  have ht' : stats.totalResults = 3 := by rw [ht]; decide
  have hp' : stats.passed = 2 := by rw [hp]; decide
  exact ⟨stats, h, ht', hp', h3 ht' hp'⟩

/-- C5 at a failing input: two results are stored for the exam `"Final"` and the filter
is `exam = "Final "`. `countDocuments` casts the filter, trims it and counts both, while
the `$match` of the aggregation compares the untrimmed value and matches none: the
reply has `totalResults = 2` and an empty `gradeDistribution`. -/
theorem getResultsStatistics_untrimmed_exam :
    exTwoSubjects.results.map (fun r => (r.exam, r.grade)) = [("Final", "A"), ("Final", "A")] ∧
    (getResultsStatistics exTwoSubjects none (some "Final ")).data?.map
      (fun s => (s.totalResults, s.gradeDistribution)) = some (2, []) ∧
    (getResultsStatistics exTwoSubjects none (some "Final")).data?.map
      (fun s => (s.totalResults, s.gradeDistribution)) =
        some (2, [{ _id := "A", count := 2 }]) := by
  decide

/-- C6: for `page >= 1` and `limit >= 1`, `getAllResults` replies with
`totalPages = ceil(total / limit)`, `totalResults = total`, `currentPage = page`,
`resultsPerPage = limit` and `min(limit, max(0, total - (page - 1) * limit))` records,
where `total` counts the records matching the filter; with `limit = 10` and 25 matching
records `totalPages` is 3 and page 3 holds 5 records. -/
theorem getAllResults_pagination (db : Store) (q : ListQuery) (page limit : Nat)
    (hpage : q.pageNumber = some (page : Int)) (hlimit : q.limitNumber = some (limit : Int))
    (h1 : 1 ≤ page) (h2 : 1 ≤ limit) :
    ∃ data pagination, getAllResults db q = .success 200 (data, pagination) ∧
      pagination.totalPages =
        some ⌈(Result.countDocuments db (listFilter q) : ℚ) / (limit : ℚ)⌉ ∧
      pagination.totalResults = Result.countDocuments db (listFilter q) ∧
      pagination.currentPage = some (page : Int) ∧
      pagination.resultsPerPage = some (limit : Int) ∧
      (data.length : Int) = min (limit : Int)
        (max 0 ((Result.countDocuments db (listFilter q) : Int) - ((page : Int) - 1) * limit)) ∧
      (limit = 10 → Result.countDocuments db (listFilter q) = 25 →
        pagination.totalPages = some 3 ∧ (page = 3 → data.length = 5)) := by
  have hl : ((limit : Int) : ℚ) ≠ 0 := by
    have : (limit : ℚ) ≠ 0 := by exact_mod_cast (by omega : limit ≠ 0)
    simpa using this
  have htp : totalPages (Result.countDocuments db (listFilter q)) (some (limit : Int)) =
      some ⌈(Result.countDocuments db (listFilter q) : ℚ) / (limit : ℚ)⌉ := by
    unfold totalPages jsDiv
    simp only
    rw [if_neg hl]
    simp
  have hlen : ((((sortResults (q.sortBy.getD "createdAt") (q.sortOrder == some "asc")
      (Result.find db (listFilter q))).drop ((page - 1) * limit)).take limit).map
        (populate db [.fullName, .className, .phone])).length =
      min limit (Result.countDocuments db (listFilter q) - (page - 1) * limit) := by
    simp [length_sortResults, Result.countDocuments, Result.find]
  refine ⟨(((sortResults (q.sortBy.getD "createdAt") (q.sortOrder == some "asc")
      (Result.find db (listFilter q))).drop ((page - 1) * limit)).take limit).map
        (populate db [.fullName, .className, .phone]),
    { currentPage := some (page : Int)
      totalPages := totalPages (Result.countDocuments db (listFilter q)) (some (limit : Int))
      totalResults := Result.countDocuments db (listFilter q)
      resultsPerPage := some (limit : Int) }, ?_, htp, rfl, rfl, rfl, ?_, ?_⟩
  · simp only [getAllResults, hpage, hlimit, Option.some_bind, Option.map_some']
    rw [skipLimit_page _ page limit h1 h2]
  · rw [hlen]
    have hs : ((page : Int) - 1) * limit = (((page - 1) * limit : Nat) : Int) := by
      push_cast [Nat.cast_sub h1]; ring
    rw [hs]
    omega
  · intro h10 h25
    refine ⟨?_, fun h3 => ?_⟩
    · have hceil : ⌈((25 : ℕ) : ℚ) / ((10 : ℕ) : ℚ)⌉ = 3 := by
        rw [Int.ceil_eq_iff]; norm_num
      rw [htp, h25, h10, hceil]
    · rw [hlen, h25, h10, h3]
      decide

/-- Witness for C6: 25 stored results, `limit=10`, `page=3`. -/
theorem getAllResults_pagination_witness :
    ∃ data pagination,
      getAllResults exManyResults { page := some "3", limit := some "10" } =
        .success 200 (data, pagination) ∧
      pagination.totalPages = some 3 ∧ pagination.totalResults = 25 ∧ data.length = 5 := by
  obtain ⟨data, pagination, h, -, ht, -, -, -, hex⟩ :=
    getAllResults_pagination exManyResults { page := some "3", limit := some "10" } 3 10
      (by decide) (by decide) (by decide) (by decide)
  have h25 : Result.countDocuments exManyResults
      (listFilter { page := some "3", limit := some "10" }) = 25 := by decide
  exact ⟨data, pagination, h, (hex rfl h25).1, ht.trans h25, (hex rfl h25).2 rfl⟩

/-- C7: `deleteResult` replies 404 with `success: false` and leaves the store unchanged
exactly when no result has the identifier; when one has it (identifiers being unique),
the delete replies 200 with the empty payload, removes one record, and the same delete
repeated at once replies 404 and changes nothing. -/
theorem deleteResult_not_found (db : Store) (id : ObjectId) :
    ((deleteResult db id).2 = .failure 404 msgResultNotFound ∧ (deleteResult db id).1 = db ↔
        ∀ r ∈ db.results, r._id ≠ id) ∧
    ((∃ r ∈ db.results, r._id = id) → UniqueIds db →
      (deleteResult db id).2 = .success 200 () ∧
      (deleteResult db id).1.results.length + 1 = db.results.length ∧
      deleteResult (deleteResult db id).1 id =
        ((deleteResult db id).1, .failure 404 msgResultNotFound)) := by
  constructor
  · constructor
    · intro h r hr hid
      have : (Result.findById db id).isSome := by
        rw [Result.findById, List.find?_isSome]
        exact ⟨r, hr, by simpa using hid⟩
      rcases hf : Result.findById db id with _ | r'
      · rw [hf] at this; cases this
      · simp [deleteResult, hf] at h
    · intro h
      have hf : Result.findById db id = none := by
        rw [Result.findById, List.find?_eq_none]
        intro x hx; simpa using h x hx
      simp [deleteResult, hf]
  · rintro ⟨r, hr, hid⟩ huniq
    have hsome : (Result.findById db id).isSome := by
      rw [Result.findById, List.find?_isSome]
      exact ⟨r, hr, by simpa using hid⟩
    rcases hf : Result.findById db id with _ | r'
    · rw [hf] at hsome; cases hsome
    · have hr' := findById_mem hf
      have hgone : Result.findById (Result.deleteOne db r') id = none := by
        unfold Result.findById Result.deleteOne
        simp only
        rw [hr'.2]
        exact find?_eraseP_self_eq_none _ _ huniq
      refine ⟨by simp [deleteResult, hf], ?_, ?_⟩
      · simp only [deleteResult, hf, Result.deleteOne]
        rw [List.length_eraseP_of_mem hr'.1 (by simp)]
        have : 0 < db.results.length := List.length_pos_of_mem hr'.1
        omega
      · simp only [deleteResult, hf, hgone]

/-- Witness for C7: the only stored result is deleted, then deleted again. -/
theorem deleteResult_not_found_witness :
    (deleteResult exOneResult 1).2 = .success 200 () ∧
      (deleteResult exOneResult 1).1.results.length + 1 = exOneResult.results.length ∧
      deleteResult (deleteResult exOneResult 1).1 1 =
        ((deleteResult exOneResult 1).1, .failure 404 msgResultNotFound) :=
  (deleteResult_not_found exOneResult 1).2 ⟨exCreated, by decide, by decide⟩
    (by unfold UniqueIds; decide)

/-- C8 (amended): `getResultsByClass` replies 200 with exactly the stored results whose
`className` equals the path parameter and, when `exam` is supplied and non-empty, whose
`exam` equals the supplied value with surrounding white space trimmed; they are ordered
by `studentName` ascending, each with its student reference populated, and `count` is
the length of the list. -/
theorem getResultsByClass_spec (db : Store) (className : String) (exam : Option String) :
    ∃ data, getResultsByClass db className exam = .success 200 (data.length, data) ∧
      (data.map (fun p => p.doc)).Perm (db.results.filter (inClass className exam)) ∧
      (data.map (fun p => p.doc)).Pairwise (fun a b => a.studentName ≤ b.studentName) ∧
      ∀ p ∈ data, p = populate db [.fullName] p.doc := by
  refine ⟨(sortResults "studentName" true
    (Result.find db (classFilter className exam))).map (populate db [.fullName]), rfl, ?_, ?_, ?_⟩
  · rw [List.map_map]
    have hid : ((fun p : PopulatedResult => p.doc) ∘ populate db [.fullName]) = id := by
      funext r; rfl
    rw [hid, List.map_id]
    refine (perm_sortResults _ _ _).trans ?_
    unfold Result.find
    rw [List.filter_congr (fun r _ => classFilter_matches className exam r)]
  · rw [List.map_map]
    have hid : ((fun p : PopulatedResult => p.doc) ∘ populate db [.fullName]) = id := by
      funext r; rfl
    rw [hid, List.map_id]
    exact (sorted_sortResults "studentName" true _).imp (fun h => (sortRel_studentName _ _).1 h)
  · intro p hp
    rw [List.mem_map] at hp
    obtain ⟨r, -, rfl⟩ := hp
    rfl

/-- C8 as stated fails: for the non-empty filter `exam = " Final"` the reply holds a
record whose `exam` is `"Final"`, not the supplied value: the filter is cast with the
`trim` setter of the `exam` path. -/
theorem getResultsByClass_trims_exam :
    (" Final" : String) ≠ "" ∧
    (getResultsByClass exOneResult "nazera" (some " Final")).data?.map
      (fun d => (d.1, d.2.map (fun p => (p.doc.className, p.doc.exam)))) =
        some (1, [("nazera", "Final")]) := by
  decide

/-- C9: when `studentId`, `exam` or `grade` is missing or empty, `createResult` replies
400 with the required-fields error and returns the store unchanged, whatever the store
holds (no lookup decides the reply); and the reply is that error only in this case. -/
theorem createResult_required_fields (db : Store) (now : Date) (body : CreateBody) :
    ((body.studentId = none ∨ truthy body.exam = false ∨ truthy body.grade = false) →
      ∀ (other : Store) (later : Date),
        createResult other later body = (other, .failure 400 msgRequired)) ∧
    ((createResult db now body).2 = .failure 400 msgRequired ↔
      (body.studentId = none ∨ truthy body.exam = false ∨ truthy body.grade = false)) := by
  have hmissing : (body.studentId = none ∨ truthy body.exam = false ∨ truthy body.grade = false) →
      ∀ (other : Store) (later : Date),
        createResult other later body = (other, .failure 400 msgRequired) := by
    intro h other later
    rcases createResult_cases other later body with ⟨h', -⟩ | ⟨sId, exam, grade, hs, he, hg, hne, hng, -⟩
    · exact h'
    · exfalso
      rcases h with h | h | h
      · rw [hs] at h; cases h
      · rw [he] at h; simp [truthy, truthyStr, hne] at h
      · rw [hg] at h; simp [truthy, truthyStr, hng] at h
  refine ⟨hmissing, ⟨fun h => ?_, fun h => by rw [hmissing h db now]⟩⟩
  rcases createResult_cases db now body with ⟨-, h'⟩ | ⟨sId, exam, grade, hs, he, hg, hne, hng, h'⟩
  · exact h'
  · exfalso
    rcases h' with ⟨h', -⟩ | ⟨student, hst, h'⟩
    · rw [h'] at h; simp at h
    rcases h' with ⟨h', -⟩ | ⟨hdup, h'⟩
    · rw [h'] at h
      simp only [Reply.failure.injEq, true_and] at h
      exact absurd h (by decide)
    rcases h' with ⟨-, h'⟩ | ⟨hv, h'⟩
    · rw [h'] at h; simp at h
    · rw [h'] at h; simp at h

/-- Witness for C9: a body without `studentId`. -/
theorem createResult_required_fields_witness :
    createResult exOneResult 20 { exam := some "Final", grade := some "A" } =
      (exOneResult, .failure 400 msgRequired) :=
  (createResult_required_fields exStore 10 { exam := some "Final", grade := some "A" }).1
    (Or.inl rfl) exOneResult 20

/-- C10: when the three required fields are present and no student has the given
`studentId`, `createResult` replies 404 with `success: false` and returns the store
unchanged, whatever results the store holds. -/
theorem createResult_student_not_found (db : Store) (now : Date) (body : CreateBody)
    (studentId : ObjectId) (hid : body.studentId = some studentId)
    (hexam : truthy body.exam = true) (hgrade : truthy body.grade = true)
    (hstudent : ∀ s ∈ db.students, s._id ≠ studentId) :
    createResult db now body = (db, .failure 404 msgStudentNotFound) := by
  have hf : Student.findById db studentId = none := by
    rw [Student.findById, List.find?_eq_none]
    intro x hx; simpa using hstudent x hx
  rcases createResult_cases db now body with ⟨-, h⟩ | ⟨sId, exam, grade, hs, he, hg, hne, hng, h⟩
  · exfalso
    rcases h with h | h | h
    · rw [hid] at h; cases h
    · rw [h] at hexam; cases hexam
    · rw [h] at hgrade; cases hgrade
  · rw [hs] at hid; cases hid
    rcases h with ⟨h, -⟩ | ⟨student, hst, -⟩
    · exact h
    · rw [hf] at hst; cases hst

/-- Witness for C10: the student of a stored result no longer exists. -/
theorem createResult_student_not_found_witness :
    createResult exOrphanStore 20 exBody = (exOrphanStore, .failure 404 msgStudentNotFound) :=
  createResult_student_not_found exOrphanStore 20 exBody 1 rfl (by decide) (by decide)
    (by intro s hs; cases hs)

/-- C11 (amended): whenever `createResult` succeeds (status 201), the new store is the
previous one plus exactly one result at the end, with a new identifier; its `studentId`,
`grade` and `marks` are the supplied values, its `exam`, `subject` and `remarks` are the
supplied values with surrounding white space trimmed, its `examDate` is the supplied one
when that is truthy and the current time when it is omitted or falsy (the number `0`);
the earlier results and the students are unchanged. -/
theorem createResult_effect (db : Store) (now : Date) (body : CreateBody) (status : Nat)
    (created : Result) (h : (createResult db now body).2 = .success status created) :
    status = 201 ∧
    (createResult db now body).1.students = db.students ∧
    (createResult db now body).1.results = db.results ++ [created] ∧
    (∀ r ∈ db.results, r._id ≠ created._id) ∧
    body.studentId = some created.studentId ∧
    body.exam.map jsTrim = some created.exam ∧
    body.grade = some created.grade ∧
    created.marks = body.marks ∧
    created.subject = body.subject.map jsTrim ∧
    created.remarks = body.remarks.map jsTrim ∧
    (∀ d, body.examDate = some d → d ≠ 0 → created.examDate = some d) ∧
    (body.examDate = none ∨ body.examDate = some 0 → created.examDate = some now) ∧
    created.createdAt = now := by
  rcases createResult_cases db now body with ⟨h', -⟩ | ⟨sId, exam, grade, hs, he, hg, hne, hng, h'⟩
  · rw [h'] at h; simp at h
  rcases h' with ⟨h', -⟩ | ⟨student, hst, h'⟩
  · rw [h'] at h; simp at h
  rcases h' with ⟨h', -⟩ | ⟨hdup, h'⟩
  · rw [h'] at h; simp at h
  rcases h' with ⟨-, h'⟩ | ⟨hv, h'⟩
  · rw [h'] at h; simp at h
  rw [h'] at h ⊢
  simp only [Reply.success.injEq] at h
  obtain ⟨hst201, hcreated⟩ := h
  subst hcreated
  refine ⟨hst201.symm, rfl, rfl, ?_, hs, ?_, hg, rfl, rfl, rfl, ?_, ?_, rfl⟩
  rotate_left 2
  · intro d hd hne
    simp [newDocument, applySetters, createDraft, examDateOrNow, hd, hne]
  · rintro (hd | hd) <;> simp [newDocument, applySetters, createDraft, examDateOrNow, hd]
  · intro r hr heq
    exact freshId_not_mem db.results (by
      have : r._id ∈ db.results.map (fun r => r._id) := List.mem_map_of_mem _ hr
      rwa [heq] at this)
  · rw [he]; rfl

/-- Witness for C11: the first create on a store with one student. -/
theorem createResult_effect_witness :
    201 = 201 ∧
    (createResult exStore 10 exBody).1.students = exStore.students ∧
    (createResult exStore 10 exBody).1.results = exStore.results ++ [exCreated] ∧
    (∀ r ∈ exStore.results, r._id ≠ exCreated._id) ∧
    exBody.studentId = some exCreated.studentId ∧
    exBody.exam.map jsTrim = some exCreated.exam ∧
    exBody.grade = some exCreated.grade ∧
    exCreated.marks = exBody.marks ∧
    exCreated.subject = exBody.subject.map jsTrim ∧
    exCreated.remarks = exBody.remarks.map jsTrim ∧
    (∀ d, exBody.examDate = some d → d ≠ 0 → exCreated.examDate = some d) ∧
    (exBody.examDate = none ∨ exBody.examDate = some 0 → exCreated.examDate = some 10) ∧
    exCreated.createdAt = 10 :=
  createResult_effect exStore 10 exBody 201 exCreated (by decide)

/-- C11 as stated fails: the create with `exam = " Final "` and `remarks = "good "`
succeeds and stores `exam = "Final"` and `remarks = "good"`, which are not the supplied
values: both paths have the `trim` setter; and the create with the supplied
`examDate = 0` at time 10 stores `examDate = 10`: `examDate || new Date()` takes the
falsy `0` for a missing date. -/
theorem createResult_trims_exam :
    (createResult exStore 10 { exBody with exam := some " Final ", remarks := some "good " }).2.data?.map
      (fun r => (r.exam, r.remarks)) = some ("Final", some "good") ∧
    (createResult exStore 10 { exBody with examDate := some 0 }).2.data?.map
      (fun r => r.examDate) = some (some 10) ∧
    (createResult exStore 10 { exBody with examDate := some 5 }).2.data?.map
      (fun r => r.examDate) = some (some 5) := by
  decide

/-- C12: in the reply of `getResultsStatistics`, `passed` is the number of matching
results whose grade is neither `D` nor `F` (those with `isPassed`), `failed` is
`totalResults - passed` and is the number of matching results graded `D` or `F`; hence
`passed <= totalResults` and `failed >= 0`. -/
theorem getResultsStatistics_pass_fail (db : Store) (className exam : Option String) :
    ∃ stats, getResultsStatistics db className exam = .success 200 stats ∧
      stats.totalResults = (Result.find db (statisticsQuery className exam)).length ∧
      stats.passed = ((Result.find db (statisticsQuery className exam)).filter
        (fun r => r.grade != "D" && r.grade != "F")).length ∧
      stats.passed = ((Result.find db (statisticsQuery className exam)).filter isPassed).length ∧
      stats.failed = (stats.totalResults : Int) - (stats.passed : Int) ∧
      stats.failed = (((Result.find db (statisticsQuery className exam)).filter
        (fun r => r.grade == "D" || r.grade == "F")).length : Int) ∧
      stats.passed ≤ stats.totalResults ∧ 0 ≤ stats.failed := by
  have hp := countDocuments_passed db (statisticsQuery className exam) (by simp [statisticsQuery])
  have hsplit := length_filter_add_length_filter_not isPassed
    (Result.find db (statisticsQuery className exam))
  have hpass : (Result.find db (statisticsQuery className exam)).filter isPassed =
      (Result.find db (statisticsQuery className exam)).filter
        (fun r => r.grade != "D" && r.grade != "F") := by
    apply List.filter_congr
    intro r _
    unfold isPassed
    by_cases h1 : r.grade = "D" <;> by_cases h2 : r.grade = "F" <;> simp [h1, h2]
  have hfail : (Result.find db (statisticsQuery className exam)).filter (fun r => !isPassed r) =
      (Result.find db (statisticsQuery className exam)).filter
        (fun r => r.grade == "D" || r.grade == "F") := by
    apply List.filter_congr
    intro r _
    unfold isPassed
    by_cases h1 : r.grade = "D" <;> by_cases h2 : r.grade = "F" <;> simp [h1, h2]
  rw [hfail] at hsplit
  refine ⟨_, rfl, rfl, ?_, hp, rfl, ?_, ?_, ?_⟩
  · show Result.countDocuments db _ = _
    rw [hp, hpass]
  · show (Result.countDocuments db _ : Int) - (Result.countDocuments db _ : Int) = _
    rw [hp]
    have : Result.countDocuments db (statisticsQuery className exam) =
        (Result.find db (statisticsQuery className exam)).length := rfl
    rw [this]
    omega
  · show Result.countDocuments db _ ≤ Result.countDocuments db _
    rw [hp]
    have : Result.countDocuments db (statisticsQuery className exam) =
        (Result.find db (statisticsQuery className exam)).length := rfl
    rw [this]
    omega
  · show 0 ≤ (Result.countDocuments db _ : Int) - (Result.countDocuments db _ : Int)
    rw [hp]
    have : Result.countDocuments db (statisticsQuery className exam) =
        (Result.find db (statisticsQuery className exam)).length := rfl
    rw [this]
    omega

/-- C13 (amended): the filter of `getAllResults` constrains exactly those of `className`,
`exam`, `studentId` and `grade` that are supplied and non-empty; every returned record is a
stored one that equals the supplied value on each supplied field (for `exam`, the supplied
value with surrounding white space trimmed); `totalResults` counts the stored results
that do so, and is the size of the store when none of the four is supplied. -/
theorem getAllResults_filter (db : Store) (q : ListQuery) (data : List PopulatedResult)
    (pagination : Pagination) (h : getAllResults db q = .success 200 (data, pagination)) :
    (listFilter q).className = (if truthy q.className then q.className else none) ∧
    (listFilter q).exam = (if truthy q.exam then q.exam else none) ∧
    (listFilter q).studentId = q.studentId ∧
    (listFilter q).grade = (if truthy q.grade then q.grade else none) ∧
    (listFilter q).subject = none ∧ (listFilter q).gradeNin = none ∧
    (∀ p ∈ data, p.doc ∈ db.results ∧
      (∀ c, q.className = some c → c ≠ "" → p.doc.className = c) ∧
      (∀ e, q.exam = some e → e ≠ "" → p.doc.exam = jsTrim e) ∧
      (∀ s, q.studentId = some s → p.doc.studentId = s) ∧
      (∀ g, q.grade = some g → g ≠ "" → p.doc.grade = g)) ∧
    pagination.totalResults = (db.results.filter (satisfiesList q)).length ∧
    (truthy q.className = false → truthy q.exam = false → q.studentId = none →
      truthy q.grade = false → pagination.totalResults = db.results.length) := by
  have hfind : Result.find db (listFilter q) = db.results.filter (satisfiesList q) := by
    unfold Result.find
    exact List.filter_congr (fun r _ => listFilter_matches q r)
  unfold getAllResults at h
  simp only at h
  split at h
  · cases h
  · rename_i results hres
    simp only [Reply.success.injEq, Prod.mk.injEq, true_and] at h
    obtain ⟨hdata, hpag⟩ := h
    have hsub : ∀ r ∈ results, r ∈ db.results.filter (satisfiesList q) := by
      intro r hr
      have := mem_of_skipLimit _ _ _ _ hres r hr
      rw [sortResults, List.mem_insertionSort, hfind] at this
      exact this
    refine ⟨rfl, rfl, rfl, rfl, rfl, rfl, ?_, ?_, ?_⟩
    · intro p hp
      rw [← hdata, List.mem_map] at hp
      obtain ⟨r, hr, rfl⟩ := hp
      have hr' := hsub r hr
      rw [List.mem_filter] at hr'
      obtain ⟨hmem, hsat⟩ := hr'
      unfold satisfiesList at hsat
      simp only [Bool.and_eq_true] at hsat
      obtain ⟨⟨⟨h1, h2⟩, h3⟩, h4⟩ := hsat
      refine ⟨hmem, ?_, ?_, ?_, ?_⟩
      · intro c hc hne
        rw [hc] at h1
        simpa [populate, hne] using h1
      · intro e he hne
        rw [he] at h2
        simpa [populate, hne] using h2
      · intro s hs
        rw [hs] at h3
        simpa [populate] using h3
      · intro g hg hne
        rw [hg] at h4
        simpa [populate, hne] using h4
    · rw [← hpag]
      show Result.countDocuments db (listFilter q) = _
      unfold Result.countDocuments
      rw [← hfind]; rfl
    · intro h1 h2 h3 h4
      rw [← hpag]
      show Result.countDocuments db (listFilter q) = _
      unfold Result.countDocuments
      congr 1
      rw [List.filter_eq_self]
      intro r _
      simp [listFilter, ResultQuery.matches, h1, h2, h3, h4]

/-- Witness for C13: the filter `exam = " Midterm"`, `grade = "B"` on three results. -/
theorem getAllResults_filter_witness :
    exFilteredPage.2.totalResults =
        (exThreeResults.results.filter (satisfiesList exFilterQuery)).length ∧
      ∀ p ∈ exFilteredPage.1, p.doc ∈ exThreeResults.results ∧
        (∀ c, exFilterQuery.className = some c → c ≠ "" → p.doc.className = c) ∧
        (∀ e, exFilterQuery.exam = some e → e ≠ "" → p.doc.exam = jsTrim e) ∧
        (∀ s, exFilterQuery.studentId = some s → p.doc.studentId = s) ∧
        (∀ g, exFilterQuery.grade = some g → g ≠ "" → p.doc.grade = g) :=
  ⟨(getAllResults_filter exThreeResults exFilterQuery exFilteredPage.1 exFilteredPage.2
      rfl).2.2.2.2.2.2.2.1,
   (getAllResults_filter exThreeResults exFilterQuery exFilteredPage.1 exFilteredPage.2
      rfl).2.2.2.2.2.2.1⟩

/-- C13 as stated fails: for the supplied `exam = " Final"` the reply holds a record
whose `exam` is `"Final"`, not the supplied value: the filter is cast with the `trim`
setter. -/
theorem getAllResults_trims_exam :
    (" Final" : String) ≠ "" ∧
    (getAllResults exOneResult { exam := some " Final" }).data?.map
      (fun d => (d.1.map (fun p => p.doc.exam), d.2.totalResults)) = some (["Final"], 1) := by
  decide

/-- C14 at the failing input: `GET /recent/5` matches no registered route, no route
names `getRecentResults`, so no request is ever dispatched to it; the other eight rows
of the documented interface are dispatched to their handlers. -/
theorem dispatch_recent_unregistered :
    dispatch .GET ["recent", "5"] = none ∧
    (∀ route ∈ router, route.handler ≠ .getRecentResults) ∧
    (∀ (method : Method) (segs : List String) (params : List (String × String)),
      dispatch method segs ≠ some (.getRecentResults, params)) ∧
    dispatch .GET [] = some (.getAllResults, []) ∧
    dispatch .GET ["64b7f0c2a1d3e4f5a6b7c8d9"] =
      some (.getResult, [("id", "64b7f0c2a1d3e4f5a6b7c8d9")]) ∧
    dispatch .POST [] = some (.createResult, []) ∧
    dispatch .PUT ["64b7f0c2a1d3e4f5a6b7c8d9"] =
      some (.updateResult, [("id", "64b7f0c2a1d3e4f5a6b7c8d9")]) ∧
    dispatch .DELETE ["64b7f0c2a1d3e4f5a6b7c8d9"] =
      some (.deleteResult, [("id", "64b7f0c2a1d3e4f5a6b7c8d9")]) ∧
    dispatch .GET ["student", "64b7f0c2a1d3e4f5a6b7c8d9"] =
      some (.getResultsByStudent, [("studentId", "64b7f0c2a1d3e4f5a6b7c8d9")]) ∧
    dispatch .GET ["class", "nazera"] = some (.getResultsByClass, [("className", "nazera")]) ∧
    dispatch .GET ["statistics"] = some (.getResultsStatistics, []) := by
  refine ⟨by decide, by decide, ?_, by decide, by decide, by decide, by decide, by decide,
    by decide, by decide, by decide⟩
  intro method segs params h
  obtain ⟨route, hr, -, hh, -⟩ := dispatchIn_mem router method segs _ params h
  revert hh
  revert route
  decide

/-- C15 (amended): the limit `N` of `getRecentResults` is the value of the path
parameter when it parses to a positive integer and 10 when the parameter is absent,
not numeric or zero; for a positive `N` the reply holds the `min(N, size of the store)`
results with the greatest `createdAt`, in descending order of `createdAt` (every
returned record is at least as recent as every record left out), and `count` is the
number of records returned. -/
theorem getRecentResults_limit (db : Store) (param : Option String) :
    (∀ n : Nat, 0 < n → param.bind parseInt = some (n : Int) → recentLimit param = n) ∧
    ((param = none ∨ param.bind parseInt = none ∨ param.bind parseInt = some 0) →
      recentLimit param = 10) ∧
    (∀ N : Nat, 0 < N → recentLimit param = N →
      ∃ data rest, getRecentResults db param = .success 200 (data.length, data) ∧
        data.length = min N db.results.length ∧
        (data.map (fun p => p.doc) ++ rest).Perm db.results ∧
        (data.map (fun p => p.doc) ++ rest).Pairwise (fun a b => b.createdAt ≤ a.createdAt) ∧
        ∀ p ∈ data, p = populate db [.fullName, .className] p.doc) := by
  refine ⟨?_, ?_, ?_⟩
  · intro n hn h
    have : (n : Int) ≠ 0 := by omega
    simp [recentLimit, h, this]
  · rintro (h | h | h)
    · simp [recentLimit, h]
    · simp [recentLimit, h]
    · simp [recentLimit, h]
  · intro N hN hlim
    have hid : ((fun p : PopulatedResult => p.doc) ∘ populate db [.fullName, .className]) = id := by
      funext r; rfl
    refine ⟨((sortResults "createdAt" false db.results).take N).map
      (populate db [.fullName, .className]),
      (sortResults "createdAt" false db.results).drop N, ?_, ?_, ?_, ?_, ?_⟩
    · unfold getRecentResults
      rw [hlim, find_all, skipLimit_take _ N hN]
    · simp [length_sortResults]
    · rw [List.map_map, hid, List.map_id, List.take_append_drop]
      exact perm_sortResults _ _ _
    · rw [List.map_map, hid, List.map_id, List.take_append_drop]
      exact (sorted_sortResults "createdAt" false _).imp
        (fun h => (sortRel_createdAt_desc _ _).1 h)
    · intro p hp
      rw [List.mem_map] at hp
      obtain ⟨r, -, rfl⟩ := hp
      rfl

/-- Witness for C15: 25 stored results and the parameters `3` and `abc`. -/
theorem getRecentResults_limit_witness :
    recentLimit (some "3") = 3 ∧ recentLimit (some "abc") = 10 ∧
    ∃ data rest, getRecentResults exManyResults (some "3") = .success 200 (data.length, data) ∧
      data.length = min 3 exManyResults.results.length ∧
      (data.map (fun p => p.doc) ++ rest).Perm exManyResults.results ∧
      (data.map (fun p => p.doc) ++ rest).Pairwise (fun a b => b.createdAt ≤ a.createdAt) ∧
      ∀ p ∈ data, p = populate exManyResults [.fullName, .className] p.doc :=
  ⟨(getRecentResults_limit exManyResults (some "3")).1 3 (by decide) (by decide),
   (getRecentResults_limit exManyResults (some "abc")).2.1 (Or.inr (Or.inl (by decide))),
   (getRecentResults_limit exManyResults (some "3")).2.2 3 (by decide) (by decide)⟩

/-- C15 as stated fails: the parameter `-5` parses to `-5`, which is not replaced by
10; the limit handed to the query is `-5`, and of 25 stored results the reply holds 5,
not 10. -/
theorem getRecentResults_negative_limit :
    parseInt "-5" = some (-5) ∧ recentLimit (some "-5") = -5 ∧
    exManyResults.results.length = 25 ∧
    (getRecentResults exManyResults (some "-5")).data?.map (fun d => (d.1, d.2.length)) =
      some (5, 5) := by
  decide

/-- C16: when a result with identifier `id` is stored (identifiers being unique),
`deleteResult` replies 200 and the new store holds no result with that identifier and is
otherwise the same: the results are the stored ones without it, in the same order and
unchanged, and the students are unchanged. -/
theorem deleteResult_frame (db : Store) (id : ObjectId) (hexists : ∃ r ∈ db.results, r._id = id)
    (huniq : UniqueIds db) :
    (deleteResult db id).2 = .success 200 () ∧
    (deleteResult db id).1.students = db.students ∧
    (deleteResult db id).1.results = db.results.filter (fun r => r._id != id) ∧
    (∀ r ∈ (deleteResult db id).1.results, r._id ≠ id) ∧
    (∀ r ∈ db.results, r._id ≠ id → r ∈ (deleteResult db id).1.results) ∧
    (∀ r ∈ (deleteResult db id).1.results, r ∈ db.results) ∧
    (deleteResult db id).1.results.length + 1 = db.results.length := by
  obtain ⟨r, hr, hid⟩ := hexists
  have hsome : (Result.findById db id).isSome := by
    rw [Result.findById, List.find?_isSome]
    exact ⟨r, hr, by simpa using hid⟩
  rcases hf : Result.findById db id with _ | r'
  · rw [hf] at hsome; cases hsome
  · have hr' := findById_mem hf
    have hres : (deleteResult db id).1.results = db.results.filter (fun r => r._id != id) := by
      simp only [deleteResult, hf, Result.deleteOne]
      rw [hr'.2]
      exact eraseP_eq_filter_of_nodup _ _ huniq
    refine ⟨by simp [deleteResult, hf], by simp [deleteResult, hf, Result.deleteOne], hres,
      ?_, ?_, ?_, ?_⟩
    · intro x hx
      rw [hres, List.mem_filter] at hx
      simpa using hx.2
    · intro x hx hne
      rw [hres, List.mem_filter]
      exact ⟨hx, by simpa using hne⟩
    · intro x hx
      rw [hres, List.mem_filter] at hx
      exact hx.1
    · simp only [deleteResult, hf, Result.deleteOne]
      rw [List.length_eraseP_of_mem hr'.1 (by simp)]
      have : 0 < db.results.length := List.length_pos_of_mem hr'.1
      omega

/-- Witness for C16: the second of three stored results is deleted. -/
theorem deleteResult_frame_witness :
    (deleteResult exThreeResults 2).2 = .success 200 () ∧
    (deleteResult exThreeResults 2).1.students = exThreeResults.students ∧
    (deleteResult exThreeResults 2).1.results =
      exThreeResults.results.filter (fun r => r._id != 2) ∧
    (∀ r ∈ (deleteResult exThreeResults 2).1.results, r._id ≠ 2) ∧
    (∀ r ∈ exThreeResults.results, r._id ≠ 2 → r ∈ (deleteResult exThreeResults 2).1.results) ∧
    (∀ r ∈ (deleteResult exThreeResults 2).1.results, r ∈ exThreeResults.results) ∧
    (deleteResult exThreeResults 2).1.results.length + 1 = exThreeResults.results.length :=
  deleteResult_frame exThreeResults 2
    (by decide) (by unfold UniqueIds; decide)

/-- C17: `updateResult` replies 404 and returns the store unchanged when no result has
the identifier; otherwise, for an update that passes the update validators, it replaces
the stored values by the supplied ones with no look at the other results. So a store
reached by creates only, with pairwise different keys, is taken by an update of one
record's `exam` (or `studentId`) to a store where the results 1 and 2 have the same
`studentId`, `exam` and `subject`. -/
theorem updateResult_no_duplicate_check :
    (∀ (db : Store) (now : Date) (id : ObjectId) (body : UpdateBody),
      (∀ r ∈ db.results, r._id ≠ id) →
      updateResult db now id body = (db, .failure 404 msgResultNotFound)) ∧
    (∀ (db : Store) (now : Date) (id : ObjectId) (body : UpdateBody) (stored : Result),
      Result.findById db id = some stored → updateErrors (castUpdate body) = [] →
      (updateResult db now id body).2 =
          .success 200 (some (applyUpdate stored (castUpdate body) now)) ∧
        (updateResult db now id body).1.students = db.students ∧
        (updateResult db now id body).1.results =
          updateFirst (fun r => r._id == id) (fun r => applyUpdate r (castUpdate body) now)
            db.results) ∧
    (Reachable exThreeResults ∧
      exThreeResults.results.Pairwise (fun a b => ¬SameKey a b) ∧
      (updateResult exThreeResults 50 2 { exam := some "Final" }).2.status = some 200 ∧
      (updateResult exThreeResults 50 2 { exam := some "Final" }).1.results.map
        (fun r => (r._id, r.studentId, r.exam, r.subject)) =
          [(1, 1, "Final", none), (2, 1, "Final", none), (3, 1, "Quiz", none)]) ∧
    (Reachable exTwoStudents ∧
      exTwoStudents.results.Pairwise (fun a b => ¬SameKey a b) ∧
      (updateResult exTwoStudents 50 2 { studentId := some 1 }).2.status = some 200 ∧
      (updateResult exTwoStudents 50 2 { studentId := some 1 }).1.results.map
        (fun r => (r._id, r.studentId, r.exam, r.subject)) =
          [(1, 1, "Final", none), (2, 1, "Final", none)]) := by
  have hreach3 : Reachable exThreeResults :=
    Reachable.create 30 _ (Reachable.create 20 _ (Reachable.create 10 exBody
      (Reachable.init [exStudent])))
  have hreach2 : Reachable exTwoStudents :=
    Reachable.create 20 _ (Reachable.create 10 exBody (Reachable.init [exStudent, exSecondStudent]))
  refine ⟨?_, ?_, ⟨hreach3, (reachable_invariant _ hreach3).2, by decide, by decide⟩,
    ⟨hreach2, (reachable_invariant _ hreach2).2, by decide, by decide⟩⟩
  · intro db now id body h
    have hf : Result.findById db id = none := by
      rw [Result.findById, List.find?_eq_none]
      intro x hx; simpa using h x hx
    simp [updateResult, hf]
  · intro db now id body stored hf hv
    simp [updateResult, hf, Result.findByIdAndUpdate, hv]

/-- Witness for C17: an unknown identifier, and an update of the marks. -/
theorem updateResult_no_duplicate_check_witness :
    updateResult exOneResult 50 7 { exam := some "Final" } =
        (exOneResult, .failure 404 msgResultNotFound) ∧
      ((updateResult exOneResult 50 1 { marks := some 80 }).2 =
          .success 200 (some (applyUpdate exCreated (castUpdate { marks := some 80 }) 50)) ∧
        (updateResult exOneResult 50 1 { marks := some 80 }).1.students = exOneResult.students ∧
        (updateResult exOneResult 50 1 { marks := some 80 }).1.results =
          updateFirst (fun r => r._id == 1)
            (fun r => applyUpdate r (castUpdate { marks := some 80 }) 50) exOneResult.results) :=
  ⟨updateResult_no_duplicate_check.1 exOneResult 50 7 { exam := some "Final" } (by decide),
   updateResult_no_duplicate_check.2.1 exOneResult 50 1 { marks := some 80 } exCreated
    (by decide) (by decide)⟩

/-- C18: under first-match dispatch in registration order, `GET /statistics` (in any
letter case) goes to `getResultsStatistics` and not to `getResult` with
`id = "statistics"`; `GET /student/:studentId` and `GET /class/:className` go to
`getResultsByStudent` and `getResultsByClass`; and a request that is dispatched to
`getResult` matches none of the five routes registered before `/:id`. -/
theorem dispatch_precedence :
    (∀ seg, asciiLower seg = "statistics" →
      dispatch .GET [seg] = some (.getResultsStatistics, [])) ∧
    dispatch .GET ["statistics"] ≠ some (.getResult, [("id", "statistics")]) ∧
    (∀ seg studentId, asciiLower seg = "student" → studentId ≠ "" →
      dispatch .GET [seg, studentId] = some (.getResultsByStudent, [("studentId", studentId)])) ∧
    (∀ seg className, asciiLower seg = "class" → className ≠ "" →
      dispatch .GET [seg, className] = some (.getResultsByClass, [("className", className)])) ∧
    dispatch .POST [] = some (.createResult, []) ∧
    dispatch .GET [] = some (.getAllResults, []) ∧
    (∀ (method : Method) (segs : List String) (params : List (String × String)),
      dispatch method segs = some (.getResult, params) →
      ∀ route ∈ router.take 5, ¬(route.method = method ∧ (matchPath route.path segs).isSome)) := by
  refine ⟨?_, by decide, ?_, ?_, by decide, by decide, ?_⟩
  · intro seg h
    have h' : asciiLower seg = asciiLower "statistics" := by rw [h]; decide
    simp [dispatch, router, dispatchIn, matchPath, h']
  · intro seg sid h hne
    have h1 : asciiLower seg ≠ asciiLower "statistics" := by rw [h]; decide
    have h2 : asciiLower seg = asciiLower "student" := by rw [h]; decide
    have h3 : asciiLower "student" ≠ asciiLower "statistics" := by decide
    simp [dispatch, router, dispatchIn, matchPath, h1, h2, h3, hne]
  · intro seg c h hne
    have h1 : asciiLower seg ≠ asciiLower "statistics" := by rw [h]; decide
    have h2 : asciiLower seg ≠ asciiLower "student" := by rw [h]; decide
    have h3 : asciiLower seg = asciiLower "class" := by rw [h]; decide
    have h4 : asciiLower "class" ≠ asciiLower "statistics" := by decide
    have h5 : asciiLower "class" ≠ asciiLower "student" := by decide
    simp [dispatch, router, dispatchIn, matchPath, h1, h2, h3, h4, h5, hne]
  · intro method segs params h route hroute hmatch
    obtain ⟨r, hr, ps, hd⟩ := dispatchIn_of_match_in_front (router.take 5) (router.drop 5)
      method segs ⟨route, hroute, hmatch⟩
    rw [List.take_append_drop] at hd
    have hd' : dispatch method segs = some (r.handler, ps) := hd
    rw [h] at hd'
    simp only [Option.some.injEq, Prod.mk.injEq] at hd'
    have hne : ∀ x ∈ router.take 5, Handler.getResult ≠ x.handler := by decide
    exact hne r hr hd'.1

/-- Witness for C18: requests written with capital letters and with parameters. -/
theorem dispatch_precedence_witness :
    dispatch .GET ["Statistics"] = some (.getResultsStatistics, []) ∧
    dispatch .GET ["student", "64b7f0c2a1d3e4f5a6b7c8d9"] =
      some (.getResultsByStudent, [("studentId", "64b7f0c2a1d3e4f5a6b7c8d9")]) ∧
    dispatch .GET ["class", "statistics"] =
      some (.getResultsByClass, [("className", "statistics")]) :=
  ⟨dispatch_precedence.1 "Statistics" (by decide),
   dispatch_precedence.2.2.1 "student" "64b7f0c2a1d3e4f5a6b7c8d9" (by decide) (by decide),
   dispatch_precedence.2.2.2.1 "class" "statistics" (by decide) (by decide)⟩

/-- C19: for a limit of at least 1 and a sort under which no two distinct matching
records compare equal, the matching records have exactly one sorted arrangement, every
page from 1 to `totalPages` is answered with the same `totalPages` and `totalResults`,
the `data` arrays of these pages, one after the other, are that sorted arrangement (so
each record occurs once and their number is `totalResults`), and every page beyond
`totalPages` is empty. -/
theorem getAllResults_pages_partition (db : Store) (q : ListQuery) (limit pages : Nat)
    (pageParam : Nat → String)
    (hlimit : q.limitNumber = some (limit : Int)) (h1 : 1 ≤ limit)
    (hpages : totalPages (Result.countDocuments db (listFilter q)) (some (limit : Int)) =
      some (pages : Int))
    (hparam : ∀ p, 1 ≤ p → p ≤ pages → parseInt (pageParam p) = some (p : Int))
    (htotal : ∀ a ∈ Result.find db (listFilter q), ∀ b ∈ Result.find db (listFilter q),
      sortRel (q.sortBy.getD "createdAt") (q.sortOrder == some "asc") a b →
      sortRel (q.sortBy.getD "createdAt") (q.sortOrder == some "asc") b a → a = b) :
    ∃ sorted : List Result,
      sorted.Perm (Result.find db (listFilter q)) ∧
      sorted.Sorted (sortRel (q.sortBy.getD "createdAt") (q.sortOrder == some "asc")) ∧
      (∀ other : List Result, other.Perm (Result.find db (listFilter q)) →
        other.Sorted (sortRel (q.sortBy.getD "createdAt") (q.sortOrder == some "asc")) →
        other = sorted) ∧
      (∀ p, 1 ≤ p → p ≤ pages →
        ∃ data pagination,
          getAllResults db { q with page := some (pageParam p) } = .success 200 (data, pagination) ∧
          pagination.totalPages = some (pages : Int) ∧
          pagination.totalResults = Result.countDocuments db (listFilter q)) ∧
      (List.range pages).flatMap
          (fun i => pageData (getAllResults db { q with page := some (pageParam (i + 1)) })) =
        sorted.map (populate db [.fullName, .className, .phone]) ∧
      ((List.range pages).flatMap
          (fun i => pageData (getAllResults db { q with page := some (pageParam (i + 1)) }))).length =
        Result.countDocuments db (listFilter q) ∧
      (∀ (s : String) (p : Nat), parseInt s = some (p : Int) → pages < p →
        ∃ pagination, getAllResults db { q with page := some s } = .success 200 ([], pagination) ∧
          pagination.totalPages = some (pages : Int)) := by
  set sorted := sortResults (q.sortBy.getD "createdAt") (q.sortOrder == some "asc")
    (Result.find db (listFilter q)) with hsorted
  have hperm : sorted.Perm (Result.find db (listFilter q)) := perm_sortResults _ _ _
  have hsort : sorted.Sorted (sortRel (q.sortBy.getD "createdAt") (q.sortOrder == some "asc")) :=
    sorted_sortResults _ _ _
  have hlen : sorted.length = Result.countDocuments db (listFilter q) := by
    rw [hsorted, length_sortResults]; rfl
  have hcover : sorted.length ≤ pages * limit := by
    rw [hlen]; exact le_mul_of_totalPages _ _ _ h1 hpages
  have hreply : ∀ (s : String) (p : Nat), parseInt s = some (p : Int) → 1 ≤ p →
      getAllResults db { q with page := some s } =
        .success 200 (((sorted.drop ((p - 1) * limit)).take limit).map
            (populate db [.fullName, .className, .phone]),
          { currentPage := some (p : Int)
            totalPages := some (pages : Int)
            totalResults := Result.countDocuments db (listFilter q)
            resultsPerPage := some (limit : Int) }) := by
    intro s p hs hp
    have hpn : ({ q with page := some s } : ListQuery).pageNumber = some (p : Int) := by
      simp [ListQuery.pageNumber, hs]
    have hln : ({ q with page := some s } : ListQuery).limitNumber = some (limit : Int) := hlimit
    have hf : listFilter { q with page := some s } = listFilter q := rfl
    simp only [getAllResults, hpn, hln, hf, Option.some_bind, Option.map_some']
    rw [skipLimit_page _ p limit hp h1, hpages]
  have hchunks : (List.range pages).flatMap
      (fun i => pageData (getAllResults db { q with page := some (pageParam (i + 1)) })) =
      sorted.map (populate db [.fullName, .className, .phone]) := by
    have hpage : ∀ i ∈ List.range pages,
        pageData (getAllResults db { q with page := some (pageParam (i + 1)) }) =
          (((sorted.map (populate db [.fullName, .className, .phone])).drop (i * limit)).take
            limit) := by
      intro i hi
      rw [List.mem_range] at hi
      rw [hreply (pageParam (i + 1)) (i + 1) (hparam (i + 1) (by omega) (by omega)) (by omega)]
      simp [pageData, List.map_take, List.map_drop]
    rw [List.flatMap_congr hpage, flatMap_chunks, List.take_of_length_le]
    rw [List.length_map]
    exact hcover
  refine ⟨sorted, hperm, hsort, ?_, ?_, hchunks, ?_, ?_⟩
  · intro other hp hs
    exact sorted_perm_unique _ other sorted (hp.trans hperm.symm) hs hsort
      (fun a ha b hb => htotal a (hp.subset ha) b (hp.subset hb))
  · intro p hp1 hp2
    exact ⟨_, _, hreply (pageParam p) p (hparam p hp1 hp2) hp1, rfl, rfl⟩
  · rw [hchunks, List.length_map, hlen]
  · intro s p hs hp
    refine ⟨{ currentPage := some (p : Int)
              totalPages := some (pages : Int)
              totalResults := Result.countDocuments db (listFilter q)
              resultsPerPage := some (limit : Int) }, ?_, rfl⟩
    rw [hreply s p hs (by omega)]
    have hdrop : sorted.drop ((p - 1) * limit) = [] := by
      apply List.drop_of_length_le
      have : pages * limit ≤ (p - 1) * limit := Nat.mul_le_mul_right _ (by omega)
      omega
    rw [hdrop, List.take_nil, List.map_nil]

/-- Witness for C19: three results in pages of two. -/
theorem getAllResults_pages_partition_witness :
    (List.range 2).flatMap
        (fun i => pageData (getAllResults exThreeResults
          { exPagedQuery with page := some (exPageParam (i + 1)) })) =
      (sortResults "createdAt" false exThreeResults.results).map
        (populate exThreeResults [.fullName, .className, .phone]) := by
  have hpages : totalPages (Result.countDocuments exThreeResults (listFilter exPagedQuery))
      (some ((2 : Nat) : Int)) = some ((2 : Nat) : Int) := by
    have hc : Result.countDocuments exThreeResults (listFilter exPagedQuery) = 3 := by decide
    have hceil : ⌈((3 : ℕ) : ℚ) / (((2 : ℕ) : ℤ) : ℚ)⌉ = ((2 : ℕ) : ℤ) := by
      rw [Int.ceil_eq_iff]; norm_num
    rw [hc]
    unfold totalPages jsDiv
    simp only
    rw [if_neg (by norm_num), Option.map_some', hceil]
  obtain ⟨sorted, hperm, hsort, huniq, -, hconcat, -, -⟩ :=
    getAllResults_pages_partition exThreeResults exPagedQuery 2 2 exPageParam (by decide)
      (by decide) hpages (by intro p h1 h2; interval_cases p <;> decide) (by decide)
  rw [hconcat]
  congr 1
  exact (huniq _ (perm_sortResults _ _ _) (sorted_sortResults _ _ _)).symm

end Madrasha
